import Mathlib

/-!
# Forward render path: a shallow embedding of `Forward.ts`

This file embeds the forward-rendering pass of the GWebGPU engine
(`src/packages/core/src/components/renderpath/Forward.ts`) and proves the
specification's testable properties about it.

Modelling conventions:
* Entities are natural numbers; each component manager is an association
  list from entity to component value, looked up by first match
  (`getComponentByEntity`).
* Matrices are opaque terms of an inductive `Mat4` with a free `mul`
  (the render path never inspects matrix contents, it only composes and
  forwards them).
* The engine and the uniform synchronizer are observed through a trace of
  `Event`s: a `render` call produces the list of engine/synchronizer calls
  it made, in order, together with the updated material store and an
  optional runtime error.  A TypeScript non-null assertion (`!`) followed
  by a property access on an absent component is a runtime `TypeError`;
  this is modelled as `RenderError.typeError`, which aborts the pass
  (the already-recorded events stay in the trace, as the real engine
  would have received them before the exception propagated).
* `MaterialSystem.setUniform` is not part of the given sources; it is
  modelled from the spec (see `setUniform` below).
-/

namespace GWebGPU

abbrev Entity := Nat

/-- Opaque 4×4 matrices: the render path only creates and multiplies them. -/
inductive Mat4 where
  | base (id : Nat)
  | mul (a b : Mat4)
deriving DecidableEq

/-- Camera component: view transform and perspective (projection) matrix. -/
structure CameraComponent where
  view : Mat4
  perspective : Mat4
deriving DecidableEq

/-- Scene component: a camera entity reference and an ordered mesh list. -/
structure SceneComponent where
  camera : Entity
  meshes : List Entity
deriving DecidableEq

/-- Mesh component: references to a material entity and a geometry entity. -/
structure MeshComponent where
  material : Entity
  geometry : Entity
deriving DecidableEq

/-- Cullable component: the frustum-culling visibility flag. -/
structure CullableComponent where
  visible : Bool
deriving DecidableEq

/-- Transform component: the world transform matrix of a mesh. -/
structure TransformComponent where
  worldTransform : Mat4
deriving DecidableEq

/-- One named uniform value inside a material binding, with its dirty flag. -/
structure UniformEntry where
  name : String
  dirty : Bool
  data : Nat
deriving DecidableEq

/-- One uniform binding of a material: an ordered list of uniform entries. -/
structure UniformBinding where
  uniforms : List UniformEntry
deriving DecidableEq

/-- Material component, with the component-level readiness `dirty` flag. -/
structure MaterialComponent where
  dirty : Bool
  uniforms : List UniformBinding
  uniformBindGroup : Nat
  pipelineLayout : Nat
  stageDescriptor : Nat
  primitiveTopology : Nat
deriving DecidableEq

/-- One vertex attribute of a geometry (`buffer` is the GPU buffer handle,
which may be unset). -/
structure GeometryAttribute where
  buffer : Option Nat
  arrayStride : Nat
  stepMode : Nat
  attributes : Nat
deriving DecidableEq

/-- Geometry component, with the component-level readiness `dirty` flag. -/
structure GeometryComponent where
  dirty : Bool
  attributes : List GeometryAttribute
  indices : Option (List Nat)
  indicesBuffer : Option Nat
  maxInstancedCount : Option Nat
deriving DecidableEq

/-- The per-buffer part of the `vertexState` of a pipeline descriptor. -/
structure VertexBufferLayout where
  arrayStride : Nat
  stepMode : Nat
  attributes : Nat
deriving DecidableEq

/-- The pipeline descriptor assembled for one draw call (lines 148-168 and
176-196 of `Forward.ts`). -/
structure PipelineDescriptor where
  layout : Nat
  stageDescriptor : Nat
  primitiveTopology : Nat
  indexFormat : Option String
  vertexBuffers : List VertexBufferLayout
  cullMode : String
  depthWriteEnabled : Bool
  depthCompare : String
  depthStencilFormat : String
deriving DecidableEq

/-- The payload of a `setUniform` push. -/
inductive UniformData where
  | mat (m : Mat4)
  | raw (d : Nat)
deriving DecidableEq

/-- One observable call made by `render` on the engine or on the uniform
synchronizer, in order.  Draw events also record the mesh entity the
label was derived from. -/
inductive Event where
  | clear (r g b a : Nat) (clearColor clearDepth clearStencil : Bool)
  | setUniform (materialEntity : Entity) (name : String) (data : UniformData)
      (isCustomValue : Bool)
  | setRenderBindGroups (groups : List Nat)
  | bindVertexInputs (indexBuffer : Option Nat) (indexOffset : Nat)
      (vertexStartSlot : Nat) (vertexBuffers : List Nat) (vertexOffsets : List Nat)
  | drawElementsType (meshEntity : Entity) (label : String)
      (descriptor : PipelineDescriptor) (firstIndex indexCount instanceCount : Nat)
  | drawArraysType (meshEntity : Entity) (label : String)
      (descriptor : PipelineDescriptor) (firstVertex vertexCount instanceCount : Nat)
deriving DecidableEq

/-- A runtime error of the render pass (a thrown `TypeError` from a
dereference of an absent component behind a non-null assertion). -/
inductive RenderError where
  | typeError
deriving DecidableEq

/-- A component manager: an association list from entity to component. -/
abbrev Store (C : Type) := List (Entity × C)

/-- `ComponentManager.getComponentByEntity`: first match wins (entity keys
are unique by the framework's invariant). -/
def getComponentByEntity {C : Type} : Store C → Entity → Option C
  | [], _ => none
  | (k, c) :: rest, e => if k = e then some c else getComponentByEntity rest e

/-- All component stores read by the forward render path. -/
structure RenderState where
  scenes : Store SceneComponent
  cameras : Store CameraComponent
  meshes : Store MeshComponent
  geometries : Store GeometryComponent
  materials : Store MaterialComponent
  cullables : Store CullableComponent
  transforms : Store TransformComponent
deriving DecidableEq

/-- Update the (first) entry of a material store at an entity. -/
def updateMaterial (mats : Store MaterialComponent) (e : Entity)
    (f : MaterialComponent → MaterialComponent) : Store MaterialComponent :=
  match mats with
  | [] => []
  | (k, c) :: rest => if k = e then (k, f c) :: rest else (k, c) :: updateMaterial rest e f

/-- Clear the dirty flag of every uniform entry named `n` in a material. -/
def clearUniformDirty (m : MaterialComponent) (n : String) : MaterialComponent :=
  { m with
    uniforms := m.uniforms.map fun b =>
      ⟨b.uniforms.map fun u => if u.name = n then { u with dirty := false } else u⟩ }

/-- Modelled from the spec: `MaterialSystem.setUniform` (§4.4) is not among
the given sources.  It writes `data` under `name` into the GPU-side uniform
storage of the material identified by the entity (observed here as a trace
event), and, when `isCustomValue` is true, clears that uniform's dirty flag
on the material's binding entries; with `isCustomValue` false (the
framework-maintained camera matrices) the component state is untouched. -/
def setUniform (mats : Store MaterialComponent) (e : Entity) (name : String)
    (data : UniformData) (isCustomValue : Bool) :
    Store MaterialComponent × Event :=
  ((if isCustomValue then updateMaterial mats e (fun m => clearUniformDirty m name) else mats),
    Event.setUniform e name data isCustomValue)

/-- Positions `(i, j)` of every uniform entry of a binding list, binding
index starting at `i0`. -/
def entryPositionsFrom (i0 : Nat) : List UniformBinding → List (Nat × Nat)
  | [] => []
  | b :: rest =>
      ((List.range b.uniforms.length).map fun j => (i0, j)) ++ entryPositionsFrom (i0 + 1) rest

/-- Positions of every uniform entry of a material (the iteration domain of
the `material.uniforms.forEach` loop at lines 111-124 of `Forward.ts`). -/
def bindingPositions (m : MaterialComponent) : List (Nat × Nat) :=
  entryPositionsFrom 0 m.uniforms

/-- The uniform entry of a material at position `(i, j)`. -/
def getEntryAt (m : MaterialComponent) (p : Nat × Nat) : Option UniformEntry :=
  (m.uniforms.get? p.1).bind fun b => b.uniforms.get? p.2

/-- One iteration of the custom-uniform loop: re-reads the current material
(the component object is mutated in place by `setUniform`), and pushes the
entry at position `p` iff its dirty flag is (still) set. -/
def customUniformStep (matEntity : Entity) (mats : Store MaterialComponent)
    (p : Nat × Nat) : Store MaterialComponent × List Event :=
  match getComponentByEntity mats matEntity with
  | none => (mats, [])
  | some m =>
    match getEntryAt m p with
    | none => (mats, [])
    | some u =>
      if u.dirty then
        let r := setUniform mats matEntity u.name (UniformData.raw u.data) true
        (r.1, [r.2])
      else (mats, [])

/-- The custom-uniform loop (lines 111-124 of `Forward.ts`) over a list of
entry positions. -/
def customUniformLoop (matEntity : Entity) (mats : Store MaterialComponent) :
    List (Nat × Nat) → Store MaterialComponent × List Event
  | [] => (mats, [])
  | p :: ps =>
      let r1 := customUniformStep matEntity mats p
      let r2 := customUniformLoop matEntity r1.1 ps
      (r2.1, r1.2 ++ r2.2)

/-- Instance-count resolution: `geometry.maxInstancedCount || 1`. -/
def resolveInstanceCount (g : GeometryComponent) : Nat :=
  match g.maxInstancedCount with
  | none => 1
  | some k => if k = 0 then 1 else k

/-- The `vertexBuffers` layout list of a draw descriptor. -/
def vertexBufferLayouts (g : GeometryComponent) : List VertexBufferLayout :=
  g.attributes.map fun a => ⟨a.arrayStride, a.stepMode, a.attributes⟩

/-- Pipeline descriptor of an indexed draw (lines 148-168). -/
def elementsDescriptor (mat : MaterialComponent) (g : GeometryComponent) :
    PipelineDescriptor :=
  ⟨mat.pipelineLayout, mat.stageDescriptor, mat.primitiveTopology,
    some "uint32", vertexBufferLayouts g, "back", true, "less", "depth24plus-stencil8"⟩

/-- Pipeline descriptor of a non-indexed draw (lines 177-196). -/
def arraysDescriptor (mat : MaterialComponent) (g : GeometryComponent) :
    PipelineDescriptor :=
  ⟨mat.pipelineLayout, mat.stageDescriptor, mat.primitiveTopology,
    none, vertexBufferLayouts g, "back", true, "less", "depth24plus-stencil8"⟩

/-- Vertex buffer handles after `.map(attribute => attribute.buffer!).filter(a => a)`:
absent handles are filtered out. -/
def filteredBuffers (g : GeometryComponent) : List Nat :=
  g.attributes.filterMap fun a => a.buffer

/-- Debug label of an indexed draw. -/
def elemLabel (e : Entity) : String :=
  "render-" ++ toString e ++ "-elements"

/-- Debug label of a non-indexed draw. -/
def arraysLabel (e : Entity) : String :=
  "render-" ++ toString e ++ "-arrays"

/-- The per-scene frame context: the camera's view and perspective matrices. -/
structure FrameContext where
  viewMatrix : Mat4
  perspectiveMatrix : Mat4
deriving DecidableEq

/-- The draw event issued for one mesh (lines 145-201 of `Forward.ts`):
indexed iff `geometry.indices && geometry.indices.length`. -/
def drawEventFor (meshEntity : Entity) (mat : MaterialComponent)
    (g : GeometryComponent) : Event :=
  match g.indices with
  | some idx =>
      if idx.isEmpty then
        Event.drawArraysType meshEntity (arraysLabel meshEntity) (arraysDescriptor mat g)
          0 3 (resolveInstanceCount g)
      else
        Event.drawElementsType meshEntity (elemLabel meshEntity) (elementsDescriptor mat g)
          0 idx.length (resolveInstanceCount g)
  | none =>
      Event.drawArraysType meshEntity (arraysLabel meshEntity) (arraysDescriptor mat g)
        0 3 (resolveInstanceCount g)

/-- The `bindVertexInputs` events issued for one mesh (lines 129-143):
present iff the attribute list is non-empty. -/
def vertexInputEvents (g : GeometryComponent) : List Event :=
  if g.attributes.isEmpty then []
  else
    [Event.bindVertexInputs g.indicesBuffer 0 0 (filteredBuffers g)
      ((filteredBuffers g).map fun _ => 0)]

/-- The camera-matrix uniform pushes for one mesh (lines 78-108 of
`Forward.ts`): only when a Transform component is present, push
`projectionMatrix` and `modelViewMatrix` (without the custom-value marker). -/
def cameraUniformPush (s : RenderState) (ctx : FrameContext)
    (mats : Store MaterialComponent) (meshEntity matEntity : Entity) :
    Store MaterialComponent × List Event :=
  match getComponentByEntity s.transforms meshEntity with
  | none => (mats, [])
  | some transform =>
    let modelViewMatrix := Mat4.mul ctx.viewMatrix transform.worldTransform
    let r1 := setUniform mats matEntity "projectionMatrix"
      (UniformData.mat ctx.perspectiveMatrix) false
    let r2 := setUniform r1.1 matEntity "modelViewMatrix"
      (UniformData.mat modelViewMatrix) false
    (r2.1, [r1.2, r2.2])

/-- Processing of one mesh entity inside the per-scene loop
(lines 63-202 of `Forward.ts`).  Returns the events issued for this mesh,
the updated material store, and an error if a non-null-asserted component
dereference failed. -/
def processMesh (s : RenderState) (ctx : FrameContext)
    (mats : Store MaterialComponent) (meshEntity : Entity) :
    List Event × Store MaterialComponent × Option RenderError :=
  match getComponentByEntity s.cullables meshEntity with
  | none => ([], mats, none)
  | some cullable =>
    if !cullable.visible then ([], mats, none)
    else
      match getComponentByEntity s.meshes meshEntity with
      | none => ([], mats, some RenderError.typeError)
      | some mesh =>
        let geometryOpt := getComponentByEntity s.geometries mesh.geometry
        match getComponentByEntity mats mesh.material with
        | none => ([], mats, some RenderError.typeError)
        | some material =>
          if material.dirty then ([], mats, none)
          else
            match geometryOpt with
            | none => ([], mats, some RenderError.typeError)
            | some geometry =>
              if geometry.dirty then ([], mats, none)
              else
                let camPush := cameraUniformPush s ctx mats meshEntity mesh.material
                let custom := customUniformLoop mesh.material camPush.1 (bindingPositions material)
                (camPush.2 ++ custom.2
                    ++ [Event.setRenderBindGroups [material.uniformBindGroup]]
                    ++ vertexInputEvents geometry
                    ++ [drawEventFor meshEntity material geometry],
                  custom.1, none)

/-- The mesh loop of one scene: sequential, aborting on a thrown error. -/
def runMeshes (s : RenderState) (ctx : FrameContext)
    (mats : Store MaterialComponent) :
    List Entity → List Event × Store MaterialComponent × Option RenderError
  | [] => ([], mats, none)
  | m :: rest =>
    match processMesh s ctx mats m with
    | (ev, mats1, some err) => (ev, mats1, some err)
    | (ev, mats1, none) =>
      match runMeshes s ctx mats1 rest with
      | (ev2, mats2, err2) => (ev ++ ev2, mats2, err2)

/-- Processing of one scene (lines 51-203): resolve the camera (a missing
camera is a thrown `TypeError` at `camera.getViewTransform()`), then run the
mesh list.  The frustum recomputation from the view-projection product has
no observable effect on the trace or the component stores. -/
def processScene (s : RenderState) (mats : Store MaterialComponent)
    (scene : SceneComponent) :
    List Event × Store MaterialComponent × Option RenderError :=
  match getComponentByEntity s.cameras scene.camera with
  | none => ([], mats, some RenderError.typeError)
  | some camera => runMeshes s ⟨camera.view, camera.perspective⟩ mats scene.meshes

/-- The scene loop: sequential over the scene store, aborting on error. -/
def runScenes (s : RenderState) (mats : Store MaterialComponent) :
    List (Entity × SceneComponent) →
      List Event × Store MaterialComponent × Option RenderError
  | [] => ([], mats, none)
  | (_, scene) :: rest =>
    match processScene s mats scene with
    | (ev, mats1, some err) => (ev, mats1, some err)
    | (ev, mats1, none) =>
      match runScenes s mats1 rest with
      | (ev2, mats2, err2) => (ev ++ ev2, mats2, err2)

/-- The result of one `render` call: the ordered call trace, the material
store after the pass (uniform dirty flags possibly cleared), and an
optional propagated runtime error. -/
structure RenderResult where
  trace : List Event
  materials : Store MaterialComponent
  error : Option RenderError
deriving DecidableEq

/-- The initial full clear: `engine.clear({r:0,g:0,b:0,a:1}, true, true, true)`. -/
def clearEvent : Event :=
  Event.clear 0 0 0 1 true true true

/-- `ForwardRenderPath.render` (lines 43-204 of `Forward.ts`). -/
def render (s : RenderState) : RenderResult :=
  let r := runScenes s s.materials s.scenes
  ⟨clearEvent :: r.1, r.2.1, r.2.2⟩

/-- The state after a frame: only the material store changed. -/
def nextState (s : RenderState) : RenderState :=
  { s with materials := (render s).materials }

/-- `v` is `u` with the dirty flag possibly cleared (never set). -/
def entryClears (u v : UniformEntry) : Prop :=
  v.name = u.name ∧ v.data = u.data ∧ (u.dirty = false → v.dirty = false)

/-- Pointwise `entryClears` on a binding's entry list. -/
def bindingClears (b c : UniformBinding) : Prop :=
  List.Forall₂ entryClears b.uniforms c.uniforms

/-- `n` is `m` with some uniform dirty flags cleared; all other material
fields unchanged. -/
def MaterialClears (m n : MaterialComponent) : Prop :=
  n.dirty = m.dirty ∧ n.uniformBindGroup = m.uniformBindGroup ∧
    n.pipelineLayout = m.pipelineLayout ∧ n.stageDescriptor = m.stageDescriptor ∧
    n.primitiveTopology = m.primitiveTopology ∧
    List.Forall₂ bindingClears m.uniforms n.uniforms

/-- `N` is the material store `M` with some uniform dirty flags cleared. -/
def StoreClears (M N : Store MaterialComponent) : Prop :=
  List.Forall₂ (fun p q => q.1 = p.1 ∧ MaterialClears p.2 q.2) M N

/-! ## Observation predicates on trace events -/

/-- Is this event a draw call (indexed or not)? -/
def Event.isDraw : Event → Bool
  | Event.drawElementsType _ _ _ _ _ _ => true
  | Event.drawArraysType _ _ _ _ _ _ => true
  | _ => false

/-- Is this event a draw call for mesh entity `m`? -/
def Event.isDrawFor (m : Entity) : Event → Bool
  | Event.drawElementsType e _ _ _ _ _ => e == m
  | Event.drawArraysType e _ _ _ _ _ => e == m
  | _ => false

/-- Is this event a `setUniform` push with the custom-value marker? -/
def Event.isCustomPush : Event → Bool
  | Event.setUniform _ _ _ b => b
  | _ => false

/-- Is this event a custom-marked `setUniform` push of uniform `n` on the
material entity `mat`? -/
def Event.isCustomPushFor (mat : Entity) (n : String) : Event → Bool
  | Event.setUniform e nm _ b => b && e == mat && nm == n
  | _ => false

/-- Is this event a `setUniform` push without the custom-value marker
(a framework camera-matrix push) named `n`? -/
def Event.isCameraPushNamed (n : String) : Event → Bool
  | Event.setUniform _ nm _ b => !b && nm == n
  | _ => false

/-- Is this event any `setUniform` push named `n`? -/
def Event.isSetUniformNamed (n : String) : Event → Bool
  | Event.setUniform _ nm _ _ => nm == n
  | _ => false

/-- Is this event a `bindVertexInputs` call? -/
def Event.isBindVertex : Event → Bool
  | Event.bindVertexInputs _ _ _ _ _ => true
  | _ => false

/-- Is this event a `clear`? -/
def Event.isClearEv : Event → Bool
  | Event.clear _ _ _ _ _ _ _ => true
  | _ => false

/-- The instance count of a draw event (0 for non-draw events). -/
def Event.drawInstanceCount : Event → Nat
  | Event.drawElementsType _ _ _ _ _ i => i
  | Event.drawArraysType _ _ _ _ _ i => i
  | _ => 0

/-- The mesh entity of a draw event (0 for non-draw events). -/
def Event.drawMeshEntity : Event → Entity
  | Event.drawElementsType e _ _ _ _ _ => e
  | Event.drawArraysType e _ _ _ _ _ => e
  | _ => 0

/-! ## Dirty-flag observations -/

/-- Does the material hold a dirty uniform entry named `n`? -/
def materialHasDirtyNamed (mat : MaterialComponent) (n : String) : Bool :=
  mat.uniforms.any fun b => b.uniforms.any fun u => u.name == n && u.dirty

/-- Does the store hold, at entity `e`, a dirty uniform entry named `n`? -/
def dirtyNamed (mats : Store MaterialComponent) (e : Entity) (n : String) : Bool :=
  match getComponentByEntity mats e with
  | none => false
  | some mat => materialHasDirtyNamed mat n

/-- How many custom-marked `setUniform` pushes of `(e, n)` a trace holds. -/
def customCount (tr : List Event) (e : Entity) (n : String) : Nat :=
  (tr.filter (Event.isCustomPushFor e n)).length

/-- Are all uniform entries of the material clean? -/
def allCleanB (mat : MaterialComponent) : Bool :=
  mat.uniforms.all fun b => b.uniforms.all fun u => !u.dirty

/-- The shape of a material: the entry count of each binding. -/
def matShape (mat : MaterialComponent) : List Nat :=
  mat.uniforms.map fun b => b.uniforms.length

/-- The entry of the material at `matE`, position `p`, is clean (vacuous
when the material or the position does not exist). -/
def entryCleanAt (mats : Store MaterialComponent) (matE : Entity)
    (p : Nat × Nat) : Prop :=
  ∀ mat u, getComponentByEntity mats matE = some mat →
    getEntryAt mat p = some u → u.dirty = false

/-! ## Concrete example states -/

/-- A material with one binding holding a dirty `opacity` uniform and a
clean `color` uniform. -/
def exMat3 : MaterialComponent :=
  ⟨false, [⟨[⟨"opacity", true, 42⟩, ⟨"color", false, 7⟩]⟩], 7, 8, 9, 4⟩

/-- A ready geometry: one attribute with buffer handle 20, three indices. -/
def exGeoIndexed : GeometryComponent :=
  ⟨false, [⟨some 20, 12, 0, 77⟩], some [0, 1, 2], some 21, none⟩

/-- A geometry whose single vertex attribute has no buffer handle set. -/
def exGeoNoBuffer : GeometryComponent :=
  ⟨false, [⟨none, 12, 0, 77⟩], none, none, none⟩

/-- A material still marked dirty (GPU resources not ready). -/
def exMatDirty : MaterialComponent :=
  ⟨true, [], 7, 8, 9, 4⟩

/-- One scene (entity 0) with camera entity 1 and one visible mesh
(entity 2) referencing material 3 and geometry 4, with a transform. -/
def exBase : RenderState :=
  ⟨[(0, ⟨1, [2]⟩)], [(1, ⟨Mat4.base 10, Mat4.base 11⟩)], [(2, ⟨3, 4⟩)],
    [(4, exGeoIndexed)], [(3, exMat3)], [(2, ⟨true⟩)], [(2, ⟨Mat4.base 12⟩)]⟩

/-- `exBase` without a Transform component for the mesh. -/
def exNoTransform : RenderState :=
  { exBase with transforms := [] }

/-- `exBase` with a dangling material reference (entity 3 unpopulated). -/
def exDanglingMat : RenderState :=
  { exBase with materials := [] }

/-- `exBase` whose geometry has an attribute with no populated buffer. -/
def exNoBuffer : RenderState :=
  { exBase with geometries := [(4, exGeoNoBuffer)] }

/-- `exBase` with the mesh culled (visible = false). -/
def exInvisible : RenderState :=
  { exBase with cullables := [(2, ⟨false⟩)] }

/-- `exBase` with a dirty (not ready) material. -/
def exDirtyMat : RenderState :=
  { exBase with materials := [(3, exMatDirty)] }

/-! ## Shape of the event lists produced by the pieces of `processMesh` -/

theorem cameraUniformPush_mats (s : RenderState) (ctx : FrameContext)
    (mats : Store MaterialComponent) (m e : Entity) :
    (cameraUniformPush s ctx mats m e).1 = mats := by
  unfold cameraUniformPush
  cases getComponentByEntity s.transforms m <;> simp [setUniform]

theorem cameraUniformPush_events (s : RenderState) (ctx : FrameContext)
    (mats : Store MaterialComponent) (m e : Entity) :
    ∀ ev ∈ (cameraUniformPush s ctx mats m e).2,
      ∃ n d, ev = Event.setUniform e n d false := by
  unfold cameraUniformPush
  cases getComponentByEntity s.transforms m with
  | none => simp
  | some t =>
      intro ev hev
      simp [setUniform] at hev
      rcases hev with h | h <;> subst h <;> exact ⟨_, _, rfl⟩

theorem customUniformStep_events (e : Entity) (mats : Store MaterialComponent)
    (p : Nat × Nat) :
    ∀ ev ∈ (customUniformStep e mats p).2,
      ∃ n d, ev = Event.setUniform e n d true := by
  intro ev hev
  unfold customUniformStep at hev
  split at hev
  · simp at hev
  · split at hev
    · simp at hev
    · split at hev
      · simp [setUniform] at hev
        subst hev
        exact ⟨_, _, rfl⟩
      · simp at hev

theorem customUniformLoop_events (e : Entity) :
    ∀ (ps : List (Nat × Nat)) (mats : Store MaterialComponent),
      ∀ ev ∈ (customUniformLoop e mats ps).2,
        ∃ n d, ev = Event.setUniform e n d true := by
  intro ps
  induction ps with
  | nil => intro mats ev hev; simp [customUniformLoop] at hev
  | cons p ps ih =>
      intro mats ev hev
      simp only [customUniformLoop, List.mem_append] at hev
      rcases hev with h | h
      · exact customUniformStep_events e mats p ev h
      · exact ih _ ev h

theorem vertexInputEvents_shape (g : GeometryComponent) :
    ∀ ev ∈ vertexInputEvents g,
      ev = Event.bindVertexInputs g.indicesBuffer 0 0 (filteredBuffers g)
        ((filteredBuffers g).map fun _ => 0) := by
  unfold vertexInputEvents
  by_cases h : g.attributes.isEmpty <;> simp [h]

theorem drawEventFor_isDrawFor (m : Entity) (mat : MaterialComponent)
    (g : GeometryComponent) :
    Event.isDrawFor m (drawEventFor m mat g) = true := by
  unfold drawEventFor
  cases g.indices with
  | none => simp [Event.isDrawFor]
  | some idx => by_cases h : idx.isEmpty <;> simp [h, Event.isDrawFor]

theorem isDrawFor_drawEventFor (m m' : Entity) (mat : MaterialComponent)
    (g : GeometryComponent) :
    Event.isDrawFor m (drawEventFor m' mat g) = (m' == m) := by
  unfold drawEventFor
  cases g.indices with
  | none => simp [Event.isDrawFor]
  | some idx => by_cases h : idx.isEmpty <;> simp [h, Event.isDrawFor]

/-! ## Branch lemmas for `processMesh` -/

theorem processMesh_no_cullable (s : RenderState) (ctx : FrameContext)
    (mats : Store MaterialComponent) (m : Entity)
    (h : getComponentByEntity s.cullables m = none) :
    processMesh s ctx mats m = ([], mats, none) := by
  simp [processMesh, h]

theorem processMesh_not_visible (s : RenderState) (ctx : FrameContext)
    (mats : Store MaterialComponent) (m : Entity) (cu : CullableComponent)
    (h : getComponentByEntity s.cullables m = some cu) (hv : cu.visible = false) :
    processMesh s ctx mats m = ([], mats, none) := by
  simp [processMesh, h, hv]

theorem processMesh_no_mesh (s : RenderState) (ctx : FrameContext)
    (mats : Store MaterialComponent) (m : Entity) (cu : CullableComponent)
    (h : getComponentByEntity s.cullables m = some cu) (hv : cu.visible = true)
    (hm : getComponentByEntity s.meshes m = none) :
    processMesh s ctx mats m = ([], mats, some RenderError.typeError) := by
  simp [processMesh, h, hv, hm]

theorem processMesh_no_material (s : RenderState) (ctx : FrameContext)
    (mats : Store MaterialComponent) (m : Entity) (cu : CullableComponent)
    (mc : MeshComponent)
    (h : getComponentByEntity s.cullables m = some cu) (hv : cu.visible = true)
    (hm : getComponentByEntity s.meshes m = some mc)
    (hmat : getComponentByEntity mats mc.material = none) :
    processMesh s ctx mats m = ([], mats, some RenderError.typeError) := by
  simp [processMesh, h, hv, hm, hmat]

theorem processMesh_material_dirty (s : RenderState) (ctx : FrameContext)
    (mats : Store MaterialComponent) (m : Entity) (cu : CullableComponent)
    (mc : MeshComponent) (mat : MaterialComponent)
    (h : getComponentByEntity s.cullables m = some cu) (hv : cu.visible = true)
    (hm : getComponentByEntity s.meshes m = some mc)
    (hmat : getComponentByEntity mats mc.material = some mat)
    (hd : mat.dirty = true) :
    processMesh s ctx mats m = ([], mats, none) := by
  simp [processMesh, h, hv, hm, hmat, hd]

theorem processMesh_no_geometry (s : RenderState) (ctx : FrameContext)
    (mats : Store MaterialComponent) (m : Entity) (cu : CullableComponent)
    (mc : MeshComponent) (mat : MaterialComponent)
    (h : getComponentByEntity s.cullables m = some cu) (hv : cu.visible = true)
    (hm : getComponentByEntity s.meshes m = some mc)
    (hmat : getComponentByEntity mats mc.material = some mat)
    (hd : mat.dirty = false)
    (hg : getComponentByEntity s.geometries mc.geometry = none) :
    processMesh s ctx mats m = ([], mats, some RenderError.typeError) := by
  simp [processMesh, h, hv, hm, hmat, hd, hg]

theorem processMesh_geometry_dirty (s : RenderState) (ctx : FrameContext)
    (mats : Store MaterialComponent) (m : Entity) (cu : CullableComponent)
    (mc : MeshComponent) (mat : MaterialComponent) (g : GeometryComponent)
    (h : getComponentByEntity s.cullables m = some cu) (hv : cu.visible = true)
    (hm : getComponentByEntity s.meshes m = some mc)
    (hmat : getComponentByEntity mats mc.material = some mat)
    (hd : mat.dirty = false)
    (hg : getComponentByEntity s.geometries mc.geometry = some g)
    (hgd : g.dirty = true) :
    processMesh s ctx mats m = ([], mats, none) := by
  simp [processMesh, h, hv, hm, hmat, hd, hg, hgd]

theorem processMesh_success (s : RenderState) (ctx : FrameContext)
    (mats : Store MaterialComponent) (m : Entity) (cu : CullableComponent)
    (mc : MeshComponent) (mat : MaterialComponent) (g : GeometryComponent)
    (h : getComponentByEntity s.cullables m = some cu) (hv : cu.visible = true)
    (hm : getComponentByEntity s.meshes m = some mc)
    (hmat : getComponentByEntity mats mc.material = some mat)
    (hd : mat.dirty = false)
    (hg : getComponentByEntity s.geometries mc.geometry = some g)
    (hgd : g.dirty = false) :
    processMesh s ctx mats m =
      ((cameraUniformPush s ctx mats m mc.material).2
          ++ (customUniformLoop mc.material mats (bindingPositions mat)).2
          ++ [Event.setRenderBindGroups [mat.uniformBindGroup]]
          ++ vertexInputEvents g
          ++ [drawEventFor m mat g],
        (customUniformLoop mc.material mats (bindingPositions mat)).1, none) := by
  simp [processMesh, h, hv, hm, hmat, hd, hg, hgd, cameraUniformPush_mats]

/-- Every event of one mesh's processing is a `setUniform`, a
`setRenderBindGroups`, a `bindVertexInputs`, or the single draw event of a
successfully resolved material/geometry pair. -/
theorem processMesh_mem_cases (s : RenderState) (ctx : FrameContext)
    (mats : Store MaterialComponent) (m : Entity) (ev : Event)
    (hev : ev ∈ (processMesh s ctx mats m).1) :
    (∃ e n d b, ev = Event.setUniform e n d b) ∨
    (∃ gs, ev = Event.setRenderBindGroups gs) ∨
    (∃ a b c d e, ev = Event.bindVertexInputs a b c d e) ∨
    (∃ mc mat g, getComponentByEntity s.meshes m = some mc ∧
        getComponentByEntity mats mc.material = some mat ∧
        getComponentByEntity s.geometries mc.geometry = some g ∧
        mat.dirty = false ∧ g.dirty = false ∧
        ev = drawEventFor m mat g) := by
  rcases hc : getComponentByEntity s.cullables m with _ | cu
  · rw [processMesh_no_cullable s ctx mats m hc] at hev
    simp at hev
  rcases hv : cu.visible with _ | _
  · rw [processMesh_not_visible s ctx mats m cu hc hv] at hev
    simp at hev
  rcases hm : getComponentByEntity s.meshes m with _ | mc
  · rw [processMesh_no_mesh s ctx mats m cu hc hv hm] at hev
    simp at hev
  rcases hmat : getComponentByEntity mats mc.material with _ | mat
  · rw [processMesh_no_material s ctx mats m cu mc hc hv hm hmat] at hev
    simp at hev
  rcases hd : mat.dirty with _ | _
  case some.true =>
    rw [processMesh_material_dirty s ctx mats m cu mc mat hc hv hm hmat hd] at hev
    simp at hev
  rcases hg : getComponentByEntity s.geometries mc.geometry with _ | g
  · rw [processMesh_no_geometry s ctx mats m cu mc mat hc hv hm hmat hd hg] at hev
    simp at hev
  rcases hgd : g.dirty with _ | _
  case some.true =>
    rw [processMesh_geometry_dirty s ctx mats m cu mc mat g hc hv hm hmat hd hg hgd] at hev
    simp at hev
  rw [processMesh_success s ctx mats m cu mc mat g hc hv hm hmat hd hg hgd] at hev
  simp only [List.mem_append, List.mem_singleton] at hev
  rcases hev with ((((h1 | h2) | h3) | h4) | h5)
  · rcases cameraUniformPush_events s ctx mats m mc.material ev h1 with ⟨n, d, rfl⟩
    exact Or.inl ⟨_, _, _, _, rfl⟩
  · rcases customUniformLoop_events mc.material (bindingPositions mat) mats ev h2 with ⟨n, d, rfl⟩
    exact Or.inl ⟨_, _, _, _, rfl⟩
  · subst h3
    exact Or.inr (Or.inl ⟨_, rfl⟩)
  · rw [vertexInputEvents_shape g ev h4]
    exact Or.inr (Or.inr (Or.inl ⟨_, _, _, _, _, rfl⟩))
  · subst h5
    exact Or.inr (Or.inr (Or.inr ⟨mc, mat, g, rfl, hmat, hg, hd, hgd, rfl⟩))

/-! ## The clears-only simulation relation

`render` mutates component state only by clearing per-uniform dirty flags.
`StoreClears M N` says that `N` is `M` with some uniform dirty flags
cleared; every store produced during a pass is in this relation to the
store it came from. -/

theorem entryClears_refl (u : UniformEntry) : entryClears u u :=
  ⟨rfl, rfl, fun h => h⟩

theorem entryClears_trans {u v w : UniformEntry} (h1 : entryClears u v)
    (h2 : entryClears v w) : entryClears u w :=
  ⟨h2.1.trans h1.1, h2.2.1.trans h1.2.1, fun h => h2.2.2 (h1.2.2 h)⟩

theorem forall₂_trans_of {α : Type} {R : α → α → Prop}
    (hR : ∀ a b c, R a b → R b c → R a c) :
    ∀ {l1 l2 l3 : List α}, List.Forall₂ R l1 l2 → List.Forall₂ R l2 l3 →
      List.Forall₂ R l1 l3 := by
  intro l1 l2 l3 h12
  induction h12 generalizing l3 with
  | nil => intro h23; cases h23; exact List.Forall₂.nil
  | cons hab h ih =>
      intro h23
      cases h23 with
      | cons hbc h' => exact List.Forall₂.cons (hR _ _ _ hab hbc) (ih h')

theorem bindingClears_refl (b : UniformBinding) : bindingClears b b :=
  List.forall₂_same.2 fun u _ => entryClears_refl u

theorem bindingClears_trans {b c d : UniformBinding} (h1 : bindingClears b c)
    (h2 : bindingClears c d) : bindingClears b d :=
  @forall₂_trans_of UniformEntry entryClears
    (fun _ _ _ hab hbc => entryClears_trans hab hbc) _ _ _ h1 h2

theorem MaterialClears_refl (m : MaterialComponent) : MaterialClears m m :=
  ⟨rfl, rfl, rfl, rfl, rfl, List.forall₂_same.2 fun b _ => bindingClears_refl b⟩

theorem MaterialClears_trans {m n k : MaterialComponent} (h1 : MaterialClears m n)
    (h2 : MaterialClears n k) : MaterialClears m k :=
  ⟨h2.1.trans h1.1, h2.2.1.trans h1.2.1, h2.2.2.1.trans h1.2.2.1,
    h2.2.2.2.1.trans h1.2.2.2.1, h2.2.2.2.2.1.trans h1.2.2.2.2.1,
    @forall₂_trans_of UniformBinding bindingClears
      (fun _ _ _ hab hbc => bindingClears_trans hab hbc) _ _ _
      h1.2.2.2.2.2 h2.2.2.2.2.2⟩

theorem StoreClears_refl (M : Store MaterialComponent) : StoreClears M M :=
  List.forall₂_same.2 fun p _ => ⟨rfl, MaterialClears_refl p.2⟩

theorem StoreClears_trans {M N K : Store MaterialComponent}
    (h1 : StoreClears M N) (h2 : StoreClears N K) : StoreClears M K :=
  @forall₂_trans_of (Entity × MaterialComponent)
    (fun p q => q.1 = p.1 ∧ MaterialClears p.2 q.2)
    (fun _ _ _ hab hbc => ⟨hbc.1.trans hab.1, MaterialClears_trans hab.2 hbc.2⟩)
    _ _ _ h1 h2

theorem StoreClears_lookup_none {M N : Store MaterialComponent} (e : Entity)
    (h : StoreClears M N) (hn : getComponentByEntity M e = none) :
    getComponentByEntity N e = none := by
  induction h with
  | nil => rfl
  | @cons p q M' N' hpq h ih =>
      rcases p with ⟨k, c⟩
      rcases q with ⟨k', c'⟩
      rcases hpq with ⟨hk, _⟩
      subst hk
      simp only [getComponentByEntity] at hn ⊢
      by_cases hke : k' = e
      · simp [hke] at hn
      · simp only [hke, if_false] at hn ⊢
        exact ih hn

theorem StoreClears_lookup_some {M N : Store MaterialComponent} (e : Entity)
    (c : MaterialComponent) (h : StoreClears M N)
    (hs : getComponentByEntity M e = some c) :
    ∃ c', getComponentByEntity N e = some c' ∧ MaterialClears c c' := by
  induction h generalizing c with
  | nil => simp [getComponentByEntity] at hs
  | @cons p q M' N' hpq h ih =>
      rcases p with ⟨k, cc⟩
      rcases q with ⟨k', cc'⟩
      rcases hpq with ⟨hk, hmc⟩
      subst hk
      simp only [getComponentByEntity] at hs ⊢
      by_cases hke : k' = e
      · simp only [hke, if_true] at hs ⊢
        cases hs
        exact ⟨cc', rfl, hmc⟩
      · simp only [hke, if_false] at hs ⊢
        exact ih _ hs

theorem StoreClears_lookup_some_rev {M N : Store MaterialComponent} (e : Entity)
    (c' : MaterialComponent) (h : StoreClears M N)
    (hs : getComponentByEntity N e = some c') :
    ∃ c, getComponentByEntity M e = some c ∧ MaterialClears c c' := by
  induction h generalizing c' with
  | nil => simp [getComponentByEntity] at hs
  | @cons p q M' N' hpq h ih =>
      rcases p with ⟨k, cc⟩
      rcases q with ⟨k', cc'⟩
      rcases hpq with ⟨hk, hmc⟩
      subst hk
      simp only [getComponentByEntity] at hs ⊢
      by_cases hke : k' = e
      · simp only [hke, if_true] at hs ⊢
        cases hs
        exact ⟨cc, rfl, hmc⟩
      · simp only [hke, if_false] at hs ⊢
        exact ih _ hs

theorem clearUniformDirty_clears (m : MaterialComponent) (n : String) :
    MaterialClears m (clearUniformDirty m n) := by
  refine ⟨rfl, rfl, rfl, rfl, rfl, ?_⟩
  unfold clearUniformDirty
  simp only [List.forall₂_map_right_iff]
  refine List.forall₂_same.2 fun b _ => ?_
  unfold bindingClears
  simp only [List.forall₂_map_right_iff]
  refine List.forall₂_same.2 fun u _ => ?_
  by_cases hn : u.name = n
  · exact ⟨by simp [hn], by simp [hn], fun _ => by simp [hn]⟩
  · exact ⟨by simp [hn], by simp [hn], fun h => by simp [hn, h]⟩

theorem updateMaterial_clears (mats : Store MaterialComponent) (e : Entity)
    (f : MaterialComponent → MaterialComponent)
    (hf : ∀ c, MaterialClears c (f c)) :
    StoreClears mats (updateMaterial mats e f) := by
  induction mats with
  | nil => exact List.Forall₂.nil
  | cons p rest ih =>
      rcases p with ⟨k, c⟩
      unfold updateMaterial
      by_cases hke : k = e
      · simp only [hke, if_true]
        exact List.Forall₂.cons ⟨rfl, hf c⟩ (StoreClears_refl rest)
      · simp only [hke, if_false]
        exact List.Forall₂.cons ⟨rfl, MaterialClears_refl c⟩ ih

theorem setUniform_clears (mats : Store MaterialComponent) (e : Entity)
    (n : String) (d : UniformData) (b : Bool) :
    StoreClears mats (setUniform mats e n d b).1 := by
  unfold setUniform
  cases b with
  | false => exact StoreClears_refl mats
  | true =>
      simp only [if_true]
      exact updateMaterial_clears mats e _ fun c => clearUniformDirty_clears c n

theorem customUniformStep_clears (e : Entity) (mats : Store MaterialComponent)
    (p : Nat × Nat) : StoreClears mats (customUniformStep e mats p).1 := by
  unfold customUniformStep
  split
  · exact StoreClears_refl mats
  · split
    · exact StoreClears_refl mats
    · split
      · dsimp only
        exact setUniform_clears mats e _ _ true
      · exact StoreClears_refl mats

theorem customUniformLoop_clears (e : Entity) :
    ∀ (ps : List (Nat × Nat)) (mats : Store MaterialComponent),
      StoreClears mats (customUniformLoop e mats ps).1 := by
  intro ps
  induction ps with
  | nil => intro mats; exact StoreClears_refl mats
  | cons p ps ih =>
      intro mats
      exact StoreClears_trans (customUniformStep_clears e mats p)
        (ih (customUniformStep e mats p).1)

theorem processMesh_clears (s : RenderState) (ctx : FrameContext)
    (mats : Store MaterialComponent) (m : Entity) :
    StoreClears mats (processMesh s ctx mats m).2.1 := by
  rcases hc : getComponentByEntity s.cullables m with _ | cu
  · rw [processMesh_no_cullable s ctx mats m hc]
    exact StoreClears_refl mats
  rcases hv : cu.visible with _ | _
  · rw [processMesh_not_visible s ctx mats m cu hc hv]
    exact StoreClears_refl mats
  rcases hm : getComponentByEntity s.meshes m with _ | mc
  · rw [processMesh_no_mesh s ctx mats m cu hc hv hm]
    exact StoreClears_refl mats
  rcases hmat : getComponentByEntity mats mc.material with _ | mat
  · rw [processMesh_no_material s ctx mats m cu mc hc hv hm hmat]
    exact StoreClears_refl mats
  rcases hd : mat.dirty with _ | _
  case some.true =>
    rw [processMesh_material_dirty s ctx mats m cu mc mat hc hv hm hmat hd]
    exact StoreClears_refl mats
  rcases hg : getComponentByEntity s.geometries mc.geometry with _ | g
  · rw [processMesh_no_geometry s ctx mats m cu mc mat hc hv hm hmat hd hg]
    exact StoreClears_refl mats
  rcases hgd : g.dirty with _ | _
  case some.true =>
    rw [processMesh_geometry_dirty s ctx mats m cu mc mat g hc hv hm hmat hd hg hgd]
    exact StoreClears_refl mats
  rw [processMesh_success s ctx mats m cu mc mat g hc hv hm hmat hd hg hgd]
  exact customUniformLoop_clears mc.material (bindingPositions mat) mats

theorem runMeshes_clears (s : RenderState) (ctx : FrameContext) :
    ∀ (xs : List Entity) (mats : Store MaterialComponent),
      StoreClears mats (runMeshes s ctx mats xs).2.1 := by
  intro xs
  induction xs with
  | nil => intro mats; exact StoreClears_refl mats
  | cons m rest ih =>
      intro mats
      rcases hr : processMesh s ctx mats m with ⟨ev, mats1, err⟩
      have h1 : StoreClears mats mats1 := by
        have := processMesh_clears s ctx mats m
        rw [hr] at this
        exact this
      cases err with
      | some e => simp [runMeshes, hr]; exact h1
      | none =>
          rcases hr2 : runMeshes s ctx mats1 rest with ⟨ev2, mats2, err2⟩
          have h2 : StoreClears mats1 mats2 := by
            have := ih mats1
            rw [hr2] at this
            exact this
          simp [runMeshes, hr, hr2]
          exact StoreClears_trans h1 h2

theorem processScene_clears (s : RenderState) (mats : Store MaterialComponent)
    (sc : SceneComponent) : StoreClears mats (processScene s mats sc).2.1 := by
  unfold processScene
  split
  · exact StoreClears_refl mats
  · exact runMeshes_clears s _ sc.meshes mats

theorem runScenes_clears (s : RenderState) :
    ∀ (xs : List (Entity × SceneComponent)) (mats : Store MaterialComponent),
      StoreClears mats (runScenes s mats xs).2.1 := by
  intro xs
  induction xs with
  | nil => intro mats; exact StoreClears_refl mats
  | cons p rest ih =>
      intro mats
      rcases p with ⟨e, sc⟩
      rcases hr : processScene s mats sc with ⟨ev, mats1, err⟩
      have h1 : StoreClears mats mats1 := by
        have := processScene_clears s mats sc
        rw [hr] at this
        exact this
      cases err with
      | some er => simp [runScenes, hr]; exact h1
      | none =>
          rcases hr2 : runScenes s mats1 rest with ⟨ev2, mats2, err2⟩
          have h2 : StoreClears mats1 mats2 := by
            have := ih mats1
            rw [hr2] at this
            exact this
          simp [runScenes, hr, hr2]
          exact StoreClears_trans h1 h2

theorem render_clears (s : RenderState) :
    StoreClears s.materials (render s).materials :=
  runScenes_clears s s.scenes s.materials

/-! ## Composition lemmas for the run loops -/

theorem runMeshes_cons_error (s : RenderState) (ctx : FrameContext)
    (mats mats1 : Store MaterialComponent) (m : Entity) (rest : List Entity)
    (ev : List Event) (err : RenderError)
    (hr : processMesh s ctx mats m = (ev, mats1, some err)) :
    runMeshes s ctx mats (m :: rest) = (ev, mats1, some err) := by
  simp [runMeshes, hr]

theorem runMeshes_cons_ok (s : RenderState) (ctx : FrameContext)
    (mats mats1 : Store MaterialComponent) (m : Entity) (rest : List Entity)
    (ev : List Event)
    (hr : processMesh s ctx mats m = (ev, mats1, none)) :
    runMeshes s ctx mats (m :: rest) =
      (ev ++ (runMeshes s ctx mats1 rest).1,
        (runMeshes s ctx mats1 rest).2.1, (runMeshes s ctx mats1 rest).2.2) := by
  rcases hr2 : runMeshes s ctx mats1 rest with ⟨ev2, mats2, err2⟩
  simp [runMeshes, hr, hr2]

theorem runScenes_cons_error (s : RenderState)
    (mats mats1 : Store MaterialComponent) (e : Entity) (sc : SceneComponent)
    (rest : List (Entity × SceneComponent)) (ev : List Event) (err : RenderError)
    (hr : processScene s mats sc = (ev, mats1, some err)) :
    runScenes s mats ((e, sc) :: rest) = (ev, mats1, some err) := by
  simp [runScenes, hr]

theorem runScenes_cons_ok (s : RenderState)
    (mats mats1 : Store MaterialComponent) (e : Entity) (sc : SceneComponent)
    (rest : List (Entity × SceneComponent)) (ev : List Event)
    (hr : processScene s mats sc = (ev, mats1, none)) :
    runScenes s mats ((e, sc) :: rest) =
      (ev ++ (runScenes s mats1 rest).1,
        (runScenes s mats1 rest).2.1, (runScenes s mats1 rest).2.2) := by
  rcases hr2 : runScenes s mats1 rest with ⟨ev2, mats2, err2⟩
  simp [runScenes, hr, hr2]

theorem processScene_no_camera (s : RenderState) (mats : Store MaterialComponent)
    (sc : SceneComponent)
    (hcam : getComponentByEntity s.cameras sc.camera = none) :
    processScene s mats sc = ([], mats, some RenderError.typeError) := by
  unfold processScene
  rw [hcam]

theorem processScene_camera (s : RenderState) (mats : Store MaterialComponent)
    (sc : SceneComponent) (cam : CameraComponent)
    (hcam : getComponentByEntity s.cameras sc.camera = some cam) :
    processScene s mats sc =
      runMeshes s ⟨cam.view, cam.perspective⟩ mats sc.meshes := by
  unfold processScene
  rw [hcam]

/-- A mesh whose processing throws has issued no events: every dereference
that can throw happens before the first engine call. -/
theorem processMesh_error_trace (s : RenderState) (ctx : FrameContext)
    (mats : Store MaterialComponent) (m : Entity) (err : RenderError)
    (he : (processMesh s ctx mats m).2.2 = some err) :
    processMesh s ctx mats m = ([], mats, some err) := by
  rcases hc : getComponentByEntity s.cullables m with _ | cu
  · rw [processMesh_no_cullable s ctx mats m hc] at he ⊢
    simp at he
  rcases hv : cu.visible with _ | _
  · rw [processMesh_not_visible s ctx mats m cu hc hv] at he ⊢
    simp at he
  rcases hm : getComponentByEntity s.meshes m with _ | mc
  · rw [processMesh_no_mesh s ctx mats m cu hc hv hm] at he ⊢
  rcases hmat : getComponentByEntity mats mc.material with _ | mat
  · rw [processMesh_no_material s ctx mats m cu mc hc hv hm hmat] at he ⊢
  rcases hd : mat.dirty with _ | _
  case some.true =>
    rw [processMesh_material_dirty s ctx mats m cu mc mat hc hv hm hmat hd] at he ⊢
    simp at he
  rcases hg : getComponentByEntity s.geometries mc.geometry with _ | g
  · rw [processMesh_no_geometry s ctx mats m cu mc mat hc hv hm hmat hd hg] at he ⊢
  rcases hgd : g.dirty with _ | _
  case some.true =>
    rw [processMesh_geometry_dirty s ctx mats m cu mc mat g hc hv hm hmat hd hg hgd] at he ⊢
    simp at he
  rw [processMesh_success s ctx mats m cu mc mat g hc hv hm hmat hd hg hgd] at he
  simp at he

/-- Every event of a mesh loop comes from the processing of one of its
meshes, at a material store reachable (by clearing only) from the starting
one. -/
theorem runMeshes_mem (s : RenderState) (ctx : FrameContext) :
    ∀ (xs : List Entity) (mats : Store MaterialComponent) (ev : Event),
      ev ∈ (runMeshes s ctx mats xs).1 →
      ∃ m mats', m ∈ xs ∧ StoreClears mats mats' ∧
        ev ∈ (processMesh s ctx mats' m).1 := by
  intro xs
  induction xs with
  | nil => intro mats ev hev; simp [runMeshes] at hev
  | cons m rest ih =>
      intro mats ev hev
      rcases hr : processMesh s ctx mats m with ⟨ev1, mats1, err⟩
      cases err with
      | some er =>
          rw [runMeshes_cons_error s ctx mats mats1 m rest ev1 er hr] at hev
          exact ⟨m, mats, List.mem_cons_self m rest, StoreClears_refl mats,
            by rw [hr]; exact hev⟩
      | none =>
          rw [runMeshes_cons_ok s ctx mats mats1 m rest ev1 hr] at hev
          rcases List.mem_append.1 hev with h1 | h2
          · exact ⟨m, mats, List.mem_cons_self m rest, StoreClears_refl mats,
              by rw [hr]; exact h1⟩
          · rcases ih mats1 ev h2 with ⟨m', mats', hmem, hsc, hev'⟩
            have hsc1 : StoreClears mats mats1 := by
              have := processMesh_clears s ctx mats m
              rw [hr] at this
              exact this
            exact ⟨m', mats', List.mem_cons_of_mem m hmem,
              StoreClears_trans hsc1 hsc, hev'⟩

/-- Every event of a scene loop comes from the processing of one mesh of
one of its scenes, under that scene's camera context. -/
theorem runScenes_mem (s : RenderState) :
    ∀ (xs : List (Entity × SceneComponent)) (mats : Store MaterialComponent)
      (ev : Event), ev ∈ (runScenes s mats xs).1 →
      ∃ e sc cam m mats', (e, sc) ∈ xs ∧
        getComponentByEntity s.cameras sc.camera = some cam ∧
        m ∈ sc.meshes ∧ StoreClears mats mats' ∧
        ev ∈ (processMesh s ⟨cam.view, cam.perspective⟩ mats' m).1 := by
  intro xs
  induction xs with
  | nil => intro mats ev hev; simp [runScenes] at hev
  | cons p rest ih =>
      intro mats ev hev
      rcases p with ⟨e, sc⟩
      rcases hcam : getComponentByEntity s.cameras sc.camera with _ | cam
      · have hps : processScene s mats sc = ([], mats, some RenderError.typeError) := by
          unfold processScene
          rw [hcam]
        rw [runScenes_cons_error s mats mats e sc rest [] RenderError.typeError hps] at hev
        simp at hev
      · have hps : processScene s mats sc =
            runMeshes s ⟨cam.view, cam.perspective⟩ mats sc.meshes := by
          unfold processScene
          rw [hcam]
        rcases hr : runMeshes s ⟨cam.view, cam.perspective⟩ mats sc.meshes
          with ⟨ev1, mats1, err⟩
        rw [hr] at hps
        cases err with
        | some er =>
            rw [runScenes_cons_error s mats mats1 e sc rest ev1 er hps] at hev
            have hev1 : ev ∈ (runMeshes s ⟨cam.view, cam.perspective⟩ mats sc.meshes).1 := by
              rw [hr]
              exact hev
            rcases runMeshes_mem s _ sc.meshes mats ev hev1 with ⟨m, mats', hm, hsc, hpe⟩
            exact ⟨e, sc, cam, m, mats', List.mem_cons_self _ rest, hcam, hm, hsc, hpe⟩
        | none =>
            rw [runScenes_cons_ok s mats mats1 e sc rest ev1 hps] at hev
            rcases List.mem_append.1 hev with h1 | h2
            · have hev1 : ev ∈ (runMeshes s ⟨cam.view, cam.perspective⟩ mats sc.meshes).1 := by
                rw [hr]
                exact h1
              rcases runMeshes_mem s _ sc.meshes mats ev hev1 with ⟨m, mats', hm, hsc, hpe⟩
              exact ⟨e, sc, cam, m, mats', List.mem_cons_self _ rest, hcam, hm, hsc, hpe⟩
            · rcases ih mats1 ev h2 with ⟨e', sc', cam', m', mats', hmem, hcam', hm', hsc', hpe'⟩
              have hsc1 : StoreClears mats mats1 := by
                have := processScene_clears s mats sc
                rw [hps] at this
                exact this
              exact ⟨e', sc', cam', m', mats', List.mem_cons_of_mem _ hmem, hcam', hm',
                StoreClears_trans hsc1 hsc', hpe'⟩

/-- Every event of a frame is the initial clear or an event of the
processing of some mesh of some scene. -/
theorem render_mem (s : RenderState) (ev : Event)
    (hev : ev ∈ (render s).trace) :
    ev = clearEvent ∨
    ∃ e sc cam m mats', (e, sc) ∈ s.scenes ∧
      getComponentByEntity s.cameras sc.camera = some cam ∧
      m ∈ sc.meshes ∧ StoreClears s.materials mats' ∧
      ev ∈ (processMesh s ⟨cam.view, cam.perspective⟩ mats' m).1 := by
  have htr : (render s).trace = clearEvent :: (runScenes s s.materials s.scenes).1 := rfl
  rw [htr] at hev
  rcases List.mem_cons.1 hev with h | h
  · exact Or.inl h
  · exact Or.inr (runScenes_mem s s.scenes s.materials ev h)

/-! ## Extractors of the single draw event -/

theorem drawEventFor_meshEntity (m : Entity) (mat : MaterialComponent)
    (g : GeometryComponent) :
    Event.drawMeshEntity (drawEventFor m mat g) = m := by
  unfold drawEventFor
  cases g.indices with
  | none => rfl
  | some idx => by_cases h : idx.isEmpty <;> simp [h, Event.drawMeshEntity]

theorem drawEventFor_instanceCount (m : Entity) (mat : MaterialComponent)
    (g : GeometryComponent) :
    Event.drawInstanceCount (drawEventFor m mat g) = resolveInstanceCount g := by
  unfold drawEventFor
  cases g.indices with
  | none => rfl
  | some idx => by_cases h : idx.isEmpty <;> simp [h, Event.drawInstanceCount]

theorem drawEventFor_isDraw (m : Entity) (mat : MaterialComponent)
    (g : GeometryComponent) :
    Event.isDraw (drawEventFor m mat g) = true := by
  unfold drawEventFor
  cases g.indices with
  | none => rfl
  | some idx => by_cases h : idx.isEmpty <;> simp [h, Event.isDraw]

theorem drawEventFor_isClearEv (m : Entity) (mat : MaterialComponent)
    (g : GeometryComponent) :
    Event.isClearEv (drawEventFor m mat g) = false := by
  unfold drawEventFor
  cases g.indices with
  | none => rfl
  | some idx => by_cases h : idx.isEmpty <;> simp [h, Event.isClearEv]

/-! ## Frame-level draw filters -/

/-- A mesh entity other than `m` never contributes a draw event labeled
for `m`. -/
theorem processMesh_filter_drawFor_ne (s : RenderState) (ctx : FrameContext)
    (mats : Store MaterialComponent) {m m' : Entity} (hne : m' ≠ m) :
    (processMesh s ctx mats m').1.filter (Event.isDrawFor m) = [] := by
  refine List.filter_eq_nil_iff.mpr ?_
  intro ev hev
  rcases processMesh_mem_cases s ctx mats m' ev hev with
    ⟨e, n, d, b, rfl⟩ | ⟨gs, rfl⟩ | ⟨a, b, c, d, e, rfl⟩ | ⟨mc, mat, g, _, _, _, _, _, rfl⟩
  · simp [Event.isDrawFor]
  · simp [Event.isDrawFor]
  · simp [Event.isDrawFor]
  · rw [isDrawFor_drawEventFor]
    simp [hne]

theorem runMeshes_filter_drawFor (s : RenderState) (ctx : FrameContext) (m : Entity)
    (h : ∀ (ctx' : FrameContext) (mats' : Store MaterialComponent),
      StoreClears s.materials mats' →
      (processMesh s ctx' mats' m).1.filter (Event.isDrawFor m) = []) :
    ∀ (xs : List Entity) (mats : Store MaterialComponent),
      StoreClears s.materials mats →
      ((runMeshes s ctx mats xs).1).filter (Event.isDrawFor m) = [] := by
  intro xs
  induction xs with
  | nil => intro mats _; simp [runMeshes]
  | cons m' rest ih =>
      intro mats hSC
      have hhead : (processMesh s ctx mats m').1.filter (Event.isDrawFor m) = [] := by
        by_cases hmm : m' = m
        · subst hmm
          exact h ctx mats hSC
        · exact processMesh_filter_drawFor_ne s ctx mats hmm
      rcases hr : processMesh s ctx mats m' with ⟨ev1, mats1, err⟩
      rw [hr] at hhead
      cases err with
      | some er =>
          rw [runMeshes_cons_error s ctx mats mats1 m' rest ev1 er hr]
          exact hhead
      | none =>
          rw [runMeshes_cons_ok s ctx mats mats1 m' rest ev1 hr]
          have hSC1 : StoreClears s.materials mats1 := by
            have := processMesh_clears s ctx mats m'
            rw [hr] at this
            exact StoreClears_trans hSC this
          simp only [List.filter_append, hhead, List.nil_append]
          exact ih mats1 hSC1

theorem runScenes_filter_drawFor (s : RenderState) (m : Entity)
    (h : ∀ (ctx' : FrameContext) (mats' : Store MaterialComponent),
      StoreClears s.materials mats' →
      (processMesh s ctx' mats' m).1.filter (Event.isDrawFor m) = []) :
    ∀ (xs : List (Entity × SceneComponent)) (mats : Store MaterialComponent),
      StoreClears s.materials mats →
      ((runScenes s mats xs).1).filter (Event.isDrawFor m) = [] := by
  intro xs
  induction xs with
  | nil => intro mats _; simp [runScenes]
  | cons p rest ih =>
      intro mats hSC
      rcases p with ⟨e, sc⟩
      rcases hr : processScene s mats sc with ⟨ev1, mats1, err⟩
      have hhead : ev1.filter (Event.isDrawFor m) = [] := by
        rcases hcam : getComponentByEntity s.cameras sc.camera with _ | cam
        · rw [processScene_no_camera s mats sc hcam] at hr
          cases hr
          rfl
        · rw [processScene_camera s mats sc cam hcam] at hr
          have := runMeshes_filter_drawFor s ⟨cam.view, cam.perspective⟩ m h
            sc.meshes mats hSC
          rw [hr] at this
          exact this
      have hSC1 : StoreClears s.materials mats1 := by
        have := processScene_clears s mats sc
        rw [hr] at this
        exact StoreClears_trans hSC this
      cases err with
      | some er =>
          rw [runScenes_cons_error s mats mats1 e sc rest ev1 er hr]
          exact hhead
      | none =>
          rw [runScenes_cons_ok s mats mats1 e sc rest ev1 hr]
          simp only [List.filter_append, hhead, List.nil_append]
          exact ih mats1 hSC1

/-- If `m`'s own processing can never produce a draw labeled for it, the
whole frame contains no draw for `m`. -/
theorem render_filter_drawFor (s : RenderState) (m : Entity)
    (h : ∀ (ctx' : FrameContext) (mats' : Store MaterialComponent),
      StoreClears s.materials mats' →
      (processMesh s ctx' mats' m).1.filter (Event.isDrawFor m) = []) :
    (render s).trace.filter (Event.isDrawFor m) = [] := by
  have htr : (render s).trace = clearEvent :: (runScenes s s.materials s.scenes).1 := rfl
  rw [htr]
  have hclear : Event.isDrawFor m clearEvent = false := rfl
  simp only [List.filter_cons, hclear, Bool.false_eq_true, if_false]
  exact runScenes_filter_drawFor s m h s.scenes s.materials (StoreClears_refl _)

/-! ## Piece-wise filters over a successful mesh chunk -/

theorem customUniformLoop_filter (p : Event → Bool)
    (hp : ∀ e n d, p (Event.setUniform e n d true) = false)
    (matE : Entity) (ps : List (Nat × Nat)) (mats : Store MaterialComponent) :
    (customUniformLoop matE mats ps).2.filter p = [] := by
  refine List.filter_eq_nil_iff.mpr ?_
  intro ev hev
  rcases customUniformLoop_events matE ps mats ev hev with ⟨n, d, rfl⟩
  simp [hp]

theorem cameraUniformPush_filter (p : Event → Bool)
    (hp : ∀ e n d, p (Event.setUniform e n d false) = false)
    (s : RenderState) (ctx : FrameContext) (mats : Store MaterialComponent)
    (m e : Entity) :
    (cameraUniformPush s ctx mats m e).2.filter p = [] := by
  refine List.filter_eq_nil_iff.mpr ?_
  intro ev hev
  rcases cameraUniformPush_events s ctx mats m e ev hev with ⟨n, d, rfl⟩
  simp [hp]

theorem vertexInputEvents_filter (p : Event → Bool)
    (hp : ∀ a b c d e, p (Event.bindVertexInputs a b c d e) = false)
    (g : GeometryComponent) :
    (vertexInputEvents g).filter p = [] := by
  refine List.filter_eq_nil_iff.mpr ?_
  intro ev hev
  rw [vertexInputEvents_shape g ev hev]
  simp [hp]

theorem vertexInputEvents_filter_self (g : GeometryComponent) :
    (vertexInputEvents g).filter Event.isBindVertex = vertexInputEvents g := by
  unfold vertexInputEvents
  by_cases h : g.attributes.isEmpty <;> simp [h, Event.isBindVertex]

theorem isBindVertex_drawEventFor (m : Entity) (mat : MaterialComponent)
    (g : GeometryComponent) :
    Event.isBindVertex (drawEventFor m mat g) = false := by
  unfold drawEventFor
  cases g.indices with
  | none => rfl
  | some idx => by_cases h : idx.isEmpty <;> simp [h, Event.isBindVertex]

theorem isCameraPushNamed_drawEventFor (n : String) (m : Entity)
    (mat : MaterialComponent) (g : GeometryComponent) :
    Event.isCameraPushNamed n (drawEventFor m mat g) = false := by
  unfold drawEventFor
  cases g.indices with
  | none => rfl
  | some idx => by_cases h : idx.isEmpty <;> simp [h, Event.isCameraPushNamed]

/-- The camera-uniform push list when a Transform component is present. -/
theorem cameraUniformPush_events_transform (s : RenderState) (ctx : FrameContext)
    (mats : Store MaterialComponent) (m e : Entity) (t : TransformComponent)
    (ht : getComponentByEntity s.transforms m = some t) :
    (cameraUniformPush s ctx mats m e).2 =
      [Event.setUniform e "projectionMatrix" (UniformData.mat ctx.perspectiveMatrix) false,
       Event.setUniform e "modelViewMatrix"
         (UniformData.mat (Mat4.mul ctx.viewMatrix t.worldTransform)) false] := by
  unfold cameraUniformPush
  rw [ht]
  rfl

/-- The camera-uniform push list is empty without a Transform component. -/
theorem cameraUniformPush_events_no_transform (s : RenderState) (ctx : FrameContext)
    (mats : Store MaterialComponent) (m e : Entity)
    (ht : getComponentByEntity s.transforms m = none) :
    (cameraUniformPush s ctx mats m e).2 = [] := by
  unfold cameraUniformPush
  rw [ht]

/-! ## Claims -/

/-- Claim C1, counterexample: in a state whose single mesh passes the
Cullable visibility check but whose material reference does not resolve,
`render` raises a runtime error (the non-null-asserted dereference throws);
the mesh is not skipped silently.  No draw call is issued. -/
theorem c1_counterexample_dangling_ref_raises :
    getComponentByEntity exDanglingMat.cullables 2 = some ⟨true⟩ ∧
    getComponentByEntity exDanglingMat.meshes 2 = some ⟨3, 4⟩ ∧
    getComponentByEntity exDanglingMat.materials 3 = none ∧
    (render exDanglingMat).error = some RenderError.typeError ∧
    (render exDanglingMat).trace.filter Event.isDraw = [] := by
  refine ⟨rfl, rfl, rfl, ?_, ?_⟩ <;> decide

/-- Claim C1 (amended): for a mesh that passes the Cullable visibility
check, if its material reference does not resolve, or its material resolves
clean and its geometry reference does not resolve, the render pass raises a
runtime error (aborting the frame) and issues no events for that mesh; it
does not skip and continue.  (Only a mesh whose material resolves and is
dirty is skipped before the geometry dereference.) -/
theorem c1_dangling_ref_error (s : RenderState) (ctx : FrameContext)
    (mats : Store MaterialComponent) (m : Entity) (cu : CullableComponent)
    (mc : MeshComponent)
    (hcu : getComponentByEntity s.cullables m = some cu) (hv : cu.visible = true)
    (hm : getComponentByEntity s.meshes m = some mc)
    (hdangle : getComponentByEntity mats mc.material = none ∨
      ∃ mat, getComponentByEntity mats mc.material = some mat ∧ mat.dirty = false ∧
        getComponentByEntity s.geometries mc.geometry = none) :
    processMesh s ctx mats m = ([], mats, some RenderError.typeError) := by
  rcases hdangle with hmat | ⟨mat, hmat, hd, hg⟩
  · exact processMesh_no_material s ctx mats m cu mc hcu hv hm hmat
  · exact processMesh_no_geometry s ctx mats m cu mc mat hcu hv hm hmat hd hg

/-- Witness for the amended C1 at a concrete state. -/
theorem c1_dangling_ref_error_witness :
    processMesh exDanglingMat ⟨Mat4.base 10, Mat4.base 11⟩ exDanglingMat.materials 2 =
      ([], exDanglingMat.materials, some RenderError.typeError) :=
  c1_dangling_ref_error exDanglingMat ⟨Mat4.base 10, Mat4.base 11⟩
    exDanglingMat.materials 2 ⟨true⟩ ⟨3, 4⟩ rfl rfl rfl (Or.inl rfl)

/-- Claim C3: a mesh whose resolved material or geometry is dirty gets no
draw call anywhere in the frame, and its processing issues no event at all
(no `setUniform`, no `setRenderBindGroups`, no `bindVertexInputs`) —
whatever the material store looks like when it is reached, as long as the
material resolves with the same readiness flag. -/
theorem c3_dirty_resources_no_draw (s : RenderState) (m : Entity)
    (mc : MeshComponent) (mat : MaterialComponent) (g : GeometryComponent)
    (hm : getComponentByEntity s.meshes m = some mc)
    (hmat : getComponentByEntity s.materials mc.material = some mat)
    (hg : getComponentByEntity s.geometries mc.geometry = some g)
    (hd : mat.dirty = true ∨ g.dirty = true) :
    (render s).trace.filter (Event.isDrawFor m) = [] ∧
    ∀ (ctx : FrameContext) (mats' : Store MaterialComponent)
      (mat' : MaterialComponent),
      getComponentByEntity mats' mc.material = some mat' →
      mat'.dirty = mat.dirty →
      processMesh s ctx mats' m = ([], mats', none) := by
  have key : ∀ (ctx : FrameContext) (mats' : Store MaterialComponent)
      (mat' : MaterialComponent),
      getComponentByEntity mats' mc.material = some mat' →
      mat'.dirty = mat.dirty →
      processMesh s ctx mats' m = ([], mats', none) := by
    intro ctx mats' mat' hmat' hdd
    rcases hcu : getComponentByEntity s.cullables m with _ | cu
    · exact processMesh_no_cullable s ctx mats' m hcu
    rcases hv : cu.visible with _ | _
    · exact processMesh_not_visible s ctx mats' m cu hcu hv
    by_cases hmd : mat'.dirty = true
    · exact processMesh_material_dirty s ctx mats' m cu mc mat' hcu hv hm hmat' hmd
    · have hmd' : mat'.dirty = false := by
        simpa using hmd
      rcases hd with hmatd | hgd
      · rw [hmd', hmatd] at hdd
        simp at hdd
      · exact processMesh_geometry_dirty s ctx mats' m cu mc mat' g hcu hv hm hmat' hmd' hg hgd
  refine ⟨?_, key⟩
  apply render_filter_drawFor
  intro ctx' mats' hSC
  rcases StoreClears_lookup_some mc.material mat hSC hmat with ⟨mat', hmat', hmc⟩
  rw [key ctx' mats' mat' hmat' hmc.1]
  rfl

/-- Witness for C3: with a dirty material, the frame has no draw for the
mesh and its processing is a silent no-op. -/
theorem c3_dirty_resources_no_draw_witness :
    (render exDirtyMat).trace.filter (Event.isDrawFor 2) = [] ∧
    processMesh exDirtyMat ⟨Mat4.base 10, Mat4.base 11⟩ exDirtyMat.materials 2 =
      ([], exDirtyMat.materials, none) := by
  have h := c3_dirty_resources_no_draw exDirtyMat 2 ⟨3, 4⟩ exMatDirty exGeoIndexed
    rfl rfl rfl (Or.inl rfl)
  exact ⟨h.1, h.2 ⟨Mat4.base 10, Mat4.base 11⟩ exDirtyMat.materials exMatDirty rfl rfl⟩

/-- Claim C4: a mesh entity with no Cullable component, or a Cullable with
`visible = false`, gets no draw call in the frame (fail-closed). -/
theorem c4_not_visible_no_draw (s : RenderState) (m : Entity)
    (h : getComponentByEntity s.cullables m = none ∨
      ∃ cu, getComponentByEntity s.cullables m = some cu ∧ cu.visible = false) :
    (render s).trace.filter (Event.isDrawFor m) = [] := by
  apply render_filter_drawFor
  intro ctx' mats' _
  rcases h with h | ⟨cu, h, hv⟩
  · rw [processMesh_no_cullable s ctx' mats' m h]
    rfl
  · rw [processMesh_not_visible s ctx' mats' m cu h hv]
    rfl

/-- Witness for C4 at a concrete culled state. -/
theorem c4_not_visible_no_draw_witness :
    (render exInvisible).trace.filter (Event.isDrawFor 2) = [] :=
  c4_not_visible_no_draw exInvisible 2 (Or.inr ⟨⟨false⟩, rfl, rfl⟩)

/-- Claim C6: every draw call of a frame carries the instance count
resolved from its mesh's geometry: `maxInstancedCount` when set to `k > 0`,
and `1` when unset or zero. -/
theorem c6_instance_count_resolution (s : RenderState) :
    ∀ ev ∈ (render s).trace, Event.isDraw ev = true →
      ∃ mc g, getComponentByEntity s.meshes (Event.drawMeshEntity ev) = some mc ∧
        getComponentByEntity s.geometries mc.geometry = some g ∧
        Event.drawInstanceCount ev = resolveInstanceCount g ∧
        (g.maxInstancedCount = none ∨ g.maxInstancedCount = some 0 →
          Event.drawInstanceCount ev = 1) ∧
        (∀ k, g.maxInstancedCount = some k → 0 < k →
          Event.drawInstanceCount ev = k) := by
  intro ev hev hdraw
  rcases render_mem s ev hev with rfl | ⟨e, sc, cam, m, mats', _, _, _, _, hpe⟩
  · simp [Event.isDraw, clearEvent] at hdraw
  rcases processMesh_mem_cases _ _ _ _ ev hpe with
    ⟨a, n, d, b, rfl⟩ | ⟨gs, rfl⟩ | ⟨a, b, c, d, e', rfl⟩ | ⟨mc, mat, g, hm, _, hg, _, _, rfl⟩
  · simp [Event.isDraw] at hdraw
  · simp [Event.isDraw] at hdraw
  · simp [Event.isDraw] at hdraw
  refine ⟨mc, g, ?_, hg, ?_, ?_, ?_⟩
  · rw [drawEventFor_meshEntity]
    exact hm
  · exact drawEventFor_instanceCount m mat g
  · intro hcase
    rw [drawEventFor_instanceCount m mat g]
    unfold resolveInstanceCount
    rcases hcase with hn | h0
    · rw [hn]
    · rw [h0]
      rfl
  · intro k hk hkpos
    rw [drawEventFor_instanceCount m mat g]
    unfold resolveInstanceCount
    rw [hk]
    have : ¬ k = 0 := Nat.pos_iff_ne_zero.mp hkpos
    simp [this]

/-- Witness for C6 at the concrete indexed draw of `exBase`
(`maxInstancedCount` unset, so the issued instance count is 1). -/
theorem c6_instance_count_resolution_witness :
    ∃ mc g,
      getComponentByEntity exBase.meshes
        (Event.drawMeshEntity (Event.drawElementsType 2 (elemLabel 2)
          (elementsDescriptor exMat3 exGeoIndexed) 0 3 1)) = some mc ∧
      getComponentByEntity exBase.geometries mc.geometry = some g ∧
      Event.drawInstanceCount (Event.drawElementsType 2 (elemLabel 2)
        (elementsDescriptor exMat3 exGeoIndexed) 0 3 1) = resolveInstanceCount g ∧
      (g.maxInstancedCount = none ∨ g.maxInstancedCount = some 0 →
        Event.drawInstanceCount (Event.drawElementsType 2 (elemLabel 2)
          (elementsDescriptor exMat3 exGeoIndexed) 0 3 1) = 1) ∧
      (∀ k, g.maxInstancedCount = some k → 0 < k →
        Event.drawInstanceCount (Event.drawElementsType 2 (elemLabel 2)
          (elementsDescriptor exMat3 exGeoIndexed) 0 3 1) = k) :=
  c6_instance_count_resolution exBase
    (Event.drawElementsType 2 (elemLabel 2) (elementsDescriptor exMat3 exGeoIndexed) 0 3 1)
    (by decide) (by decide)

/-- Claim C10: every frame starts with exactly one full clear (color,
depth and stencil), and it precedes every other engine call of the frame:
it is the first event of the trace and no other clear occurs. -/
theorem c10_clear_first_exactly_once (s : RenderState) :
    (render s).trace.head? = some (Event.clear 0 0 0 1 true true true) ∧
    (render s).trace.countP Event.isClearEv = 1 := by
  constructor
  · rfl
  · have htr : (render s).trace = clearEvent :: (runScenes s s.materials s.scenes).1 := rfl
    rw [htr, List.countP_cons]
    have h0 : (runScenes s s.materials s.scenes).1.countP Event.isClearEv = 0 := by
      apply List.countP_eq_zero.mpr
      intro ev hev
      rcases runScenes_mem s s.scenes s.materials ev hev with
        ⟨e, sc, cam, m, mats', _, _, _, _, hpe⟩
      rcases processMesh_mem_cases _ _ _ _ ev hpe with
        ⟨a, n, d, b, rfl⟩ | ⟨gs, rfl⟩ | ⟨a, b, c, d, e', rfl⟩ | ⟨mc, mat, g, _, _, _, _, _, rfl⟩
      · simp [Event.isClearEv]
      · simp [Event.isClearEv]
      · simp [Event.isClearEv]
      · simp [drawEventFor_isClearEv]
    rw [h0]
    rfl

/-- Claim C2, counterexample: a mesh that passes the visibility and
readiness checks and is drawn, but has no Transform component, gets no
`projectionMatrix` or `modelViewMatrix` push at all — not "exactly once". -/
theorem c2_counterexample_no_transform_no_push :
    getComponentByEntity exNoTransform.transforms 2 = none ∧
    ((render exNoTransform).trace.filter Event.isDraw).length = 1 ∧
    (render exNoTransform).trace.filter (Event.isSetUniformNamed "projectionMatrix") = [] ∧
    (render exNoTransform).trace.filter (Event.isSetUniformNamed "modelViewMatrix") = [] := by
  refine ⟨rfl, ?_, ?_, ?_⟩ <;> decide

/-- Claim C2 (amended): for a mesh that passes the visibility and readiness
checks **and has a Transform component**, the processing of that mesh pushes
the `projectionMatrix` and `modelViewMatrix` uniforms (without the
custom-value marker) exactly once each, with the camera's perspective
matrix and `view × worldTransform` respectively, regardless of any dirty
state. -/
theorem c2_camera_uniforms_once (s : RenderState) (ctx : FrameContext)
    (mats : Store MaterialComponent) (m : Entity) (cu : CullableComponent)
    (mc : MeshComponent) (mat : MaterialComponent) (g : GeometryComponent)
    (t : TransformComponent)
    (hcu : getComponentByEntity s.cullables m = some cu) (hv : cu.visible = true)
    (hm : getComponentByEntity s.meshes m = some mc)
    (hmat : getComponentByEntity mats mc.material = some mat)
    (hd : mat.dirty = false)
    (hg : getComponentByEntity s.geometries mc.geometry = some g)
    (hgd : g.dirty = false)
    (ht : getComponentByEntity s.transforms m = some t) :
    (processMesh s ctx mats m).1.filter (Event.isCameraPushNamed "projectionMatrix") =
      [Event.setUniform mc.material "projectionMatrix"
        (UniformData.mat ctx.perspectiveMatrix) false] ∧
    (processMesh s ctx mats m).1.filter (Event.isCameraPushNamed "modelViewMatrix") =
      [Event.setUniform mc.material "modelViewMatrix"
        (UniformData.mat (Mat4.mul ctx.viewMatrix t.worldTransform)) false] := by
  rw [processMesh_success s ctx mats m cu mc mat g hcu hv hm hmat hd hg hgd]
  rw [cameraUniformPush_events_transform s ctx mats m mc.material t ht]
  have hmp : (("modelViewMatrix" : String) == "projectionMatrix") = false := by decide
  have hpm : (("projectionMatrix" : String) == "modelViewMatrix") = false := by decide
  constructor
  · have h1 : Event.isCameraPushNamed "projectionMatrix"
        (Event.setUniform mc.material "projectionMatrix"
          (UniformData.mat ctx.perspectiveMatrix) false) = true := by
      simp [Event.isCameraPushNamed]
    have h2 : Event.isCameraPushNamed "projectionMatrix"
        (Event.setUniform mc.material "modelViewMatrix"
          (UniformData.mat (Mat4.mul ctx.viewMatrix t.worldTransform)) false) = false := by
      simp [Event.isCameraPushNamed, hmp]
    have h3 : Event.isCameraPushNamed "projectionMatrix"
        (Event.setRenderBindGroups [mat.uniformBindGroup]) = false := rfl
    have h4 := isCameraPushNamed_drawEventFor "projectionMatrix" m mat g
    simp only [List.filter_append,
      customUniformLoop_filter (Event.isCameraPushNamed "projectionMatrix")
        (fun _ _ _ => rfl) mc.material (bindingPositions mat) mats,
      vertexInputEvents_filter (Event.isCameraPushNamed "projectionMatrix")
        (fun _ _ _ _ _ => rfl) g,
      List.filter_cons, List.filter_nil]
    simp [h1, h2, h3, h4]
  · have h1 : Event.isCameraPushNamed "modelViewMatrix"
        (Event.setUniform mc.material "projectionMatrix"
          (UniformData.mat ctx.perspectiveMatrix) false) = false := by
      simp [Event.isCameraPushNamed, hpm]
    have h2 : Event.isCameraPushNamed "modelViewMatrix"
        (Event.setUniform mc.material "modelViewMatrix"
          (UniformData.mat (Mat4.mul ctx.viewMatrix t.worldTransform)) false) = true := by
      simp [Event.isCameraPushNamed]
    have h3 : Event.isCameraPushNamed "modelViewMatrix"
        (Event.setRenderBindGroups [mat.uniformBindGroup]) = false := rfl
    have h4 := isCameraPushNamed_drawEventFor "modelViewMatrix" m mat g
    simp only [List.filter_append,
      customUniformLoop_filter (Event.isCameraPushNamed "modelViewMatrix")
        (fun _ _ _ => rfl) mc.material (bindingPositions mat) mats,
      vertexInputEvents_filter (Event.isCameraPushNamed "modelViewMatrix")
        (fun _ _ _ _ _ => rfl) g,
      List.filter_cons, List.filter_nil]
    simp [h1, h2, h3, h4]

/-- Witness for the amended C2 at `exBase`. -/
theorem c2_camera_uniforms_once_witness :
    (processMesh exBase ⟨Mat4.base 10, Mat4.base 11⟩ exBase.materials 2).1.filter
        (Event.isCameraPushNamed "projectionMatrix") =
      [Event.setUniform 3 "projectionMatrix" (UniformData.mat (Mat4.base 11)) false] ∧
    (processMesh exBase ⟨Mat4.base 10, Mat4.base 11⟩ exBase.materials 2).1.filter
        (Event.isCameraPushNamed "modelViewMatrix") =
      [Event.setUniform 3 "modelViewMatrix"
        (UniformData.mat (Mat4.mul (Mat4.base 10) (Mat4.base 12))) false] :=
  c2_camera_uniforms_once exBase ⟨Mat4.base 10, Mat4.base 11⟩ exBase.materials 2
    ⟨true⟩ ⟨3, 4⟩ exMat3 exGeoIndexed ⟨Mat4.base 12⟩ rfl rfl rfl rfl rfl rfl rfl rfl

/-- Claim C5: a mesh passing the visibility and readiness checks gets
exactly one draw call: indexed with first index 0 and the full index count
when the geometry has a non-empty index list, otherwise non-indexed with
first vertex 0 and a fixed vertex count of 3. -/
theorem c5_draw_mode_selection (s : RenderState) (ctx : FrameContext)
    (mats : Store MaterialComponent) (m : Entity) (cu : CullableComponent)
    (mc : MeshComponent) (mat : MaterialComponent) (g : GeometryComponent)
    (hcu : getComponentByEntity s.cullables m = some cu) (hv : cu.visible = true)
    (hm : getComponentByEntity s.meshes m = some mc)
    (hmat : getComponentByEntity mats mc.material = some mat)
    (hd : mat.dirty = false)
    (hg : getComponentByEntity s.geometries mc.geometry = some g)
    (hgd : g.dirty = false) :
    (processMesh s ctx mats m).1.filter Event.isDraw =
      [match g.indices with
       | some idx =>
           if idx.isEmpty then
             Event.drawArraysType m (arraysLabel m) (arraysDescriptor mat g) 0 3
               (resolveInstanceCount g)
           else
             Event.drawElementsType m (elemLabel m) (elementsDescriptor mat g) 0
               idx.length (resolveInstanceCount g)
       | none =>
           Event.drawArraysType m (arraysLabel m) (arraysDescriptor mat g) 0 3
             (resolveInstanceCount g)] := by
  rw [processMesh_success s ctx mats m cu mc mat g hcu hv hm hmat hd hg hgd]
  simp only [List.filter_append,
    cameraUniformPush_filter Event.isDraw (fun _ _ _ => rfl) s ctx mats m mc.material,
    customUniformLoop_filter Event.isDraw (fun _ _ _ => rfl) mc.material
      (bindingPositions mat) mats,
    vertexInputEvents_filter Event.isDraw (fun _ _ _ _ _ => rfl) g,
    List.filter_cons, List.filter_nil]
  have hbg : Event.isDraw (Event.setRenderBindGroups [mat.uniformBindGroup]) = false := rfl
  have hdr := drawEventFor_isDraw m mat g
  simp only [hbg, hdr, Bool.false_eq_true, if_false, if_true,
    List.nil_append, List.append_nil]
  rfl

/-- Witness for C5 at `exBase` (three indices, so one indexed draw of
index count 3, starting at index 0). -/
theorem c5_draw_mode_selection_witness :
    (processMesh exBase ⟨Mat4.base 10, Mat4.base 11⟩ exBase.materials 2).1.filter
        Event.isDraw =
      [Event.drawElementsType 2 (elemLabel 2) (elementsDescriptor exMat3 exGeoIndexed)
        0 3 1] :=
  c5_draw_mode_selection exBase ⟨Mat4.base 10, Mat4.base 11⟩ exBase.materials 2
    ⟨true⟩ ⟨3, 4⟩ exMat3 exGeoIndexed rfl rfl rfl rfl rfl rfl rfl

/-- Claim C9, counterexample: a drawn mesh whose geometry has one vertex
attribute with **no** populated buffer handle still gets a
`bindVertexInputs` call (with an empty buffer list): the code only tests
that the attribute list is non-empty, not that a buffer is populated. -/
theorem c9_counterexample_unpopulated_buffer_still_binds :
    exGeoNoBuffer.attributes.all (fun a => a.buffer.isNone) = true ∧
    getComponentByEntity exNoBuffer.geometries 4 = some exGeoNoBuffer ∧
    ((render exNoBuffer).trace.filter Event.isDraw).length = 1 ∧
    (render exNoBuffer).trace.filter Event.isBindVertex =
      [Event.bindVertexInputs none 0 0 [] []] := by
  refine ⟨rfl, rfl, ?_, ?_⟩ <;> decide

/-- Claim C9 (amended): for a drawn mesh, `bindVertexInputs` is called iff
the geometry's **attribute list is non-empty**; when called, the bound
vertex buffers are exactly the attributes' buffers with unset handles
filtered out, in consecutive slots starting at slot 0 with zero offsets,
together with the geometry's index buffer (if any) at index offset 0. -/
theorem c9_bind_vertex_inputs_rule (s : RenderState) (ctx : FrameContext)
    (mats : Store MaterialComponent) (m : Entity) (cu : CullableComponent)
    (mc : MeshComponent) (mat : MaterialComponent) (g : GeometryComponent)
    (hcu : getComponentByEntity s.cullables m = some cu) (hv : cu.visible = true)
    (hm : getComponentByEntity s.meshes m = some mc)
    (hmat : getComponentByEntity mats mc.material = some mat)
    (hd : mat.dirty = false)
    (hg : getComponentByEntity s.geometries mc.geometry = some g)
    (hgd : g.dirty = false) :
    (processMesh s ctx mats m).1.filter Event.isBindVertex =
      (if g.attributes.isEmpty then []
       else [Event.bindVertexInputs g.indicesBuffer 0 0 (filteredBuffers g)
         ((filteredBuffers g).map fun _ => 0)]) := by
  rw [processMesh_success s ctx mats m cu mc mat g hcu hv hm hmat hd hg hgd]
  simp only [List.filter_append,
    cameraUniformPush_filter Event.isBindVertex (fun _ _ _ => rfl) s ctx mats m mc.material,
    customUniformLoop_filter Event.isBindVertex (fun _ _ _ => rfl) mc.material
      (bindingPositions mat) mats,
    vertexInputEvents_filter_self,
    List.filter_cons, List.filter_nil]
  have hbg : Event.isBindVertex (Event.setRenderBindGroups [mat.uniformBindGroup]) = false := rfl
  have hdr := isBindVertex_drawEventFor m mat g
  simp only [hbg, hdr, Bool.false_eq_true, if_false,
    List.nil_append, List.append_nil]
  rfl

/-- Witness for the amended C9 at `exBase` (one attribute with buffer
handle 20, index buffer 21). -/
theorem c9_bind_vertex_inputs_rule_witness :
    (processMesh exBase ⟨Mat4.base 10, Mat4.base 11⟩ exBase.materials 2).1.filter
        Event.isBindVertex =
      [Event.bindVertexInputs (some 21) 0 0 [20] [0]] :=
  c9_bind_vertex_inputs_rule exBase ⟨Mat4.base 10, Mat4.base 11⟩ exBase.materials 2
    ⟨true⟩ ⟨3, 4⟩ exMat3 exGeoIndexed rfl rfl rfl rfl rfl rfl rfl

/-! ## Dirty-flag bookkeeping lemmas -/

theorem materialHasDirtyNamed_iff (mat : MaterialComponent) (n : String) :
    materialHasDirtyNamed mat n = true ↔
      ∃ b ∈ mat.uniforms, ∃ u ∈ b.uniforms, u.name = n ∧ u.dirty = true := by
  simp [materialHasDirtyNamed, List.any_eq_true, Bool.and_eq_true, beq_iff_eq]

theorem allCleanB_iff (mat : MaterialComponent) :
    allCleanB mat = true ↔
      ∀ b ∈ mat.uniforms, ∀ u ∈ b.uniforms, u.dirty = false := by
  simp [allCleanB, List.all_eq_true]

theorem allCleanB_hasDirtyNamed (mat : MaterialComponent) (n : String)
    (h : allCleanB mat = true) : materialHasDirtyNamed mat n = false := by
  rcases hdn : materialHasDirtyNamed mat n with _ | _
  · rfl
  · rcases (materialHasDirtyNamed_iff mat n).1 hdn with ⟨b, hb, u, hu, _, hd⟩
    rw [(allCleanB_iff mat).1 h b hb u hu] at hd
    cases hd

theorem allCleanB_entry (mat : MaterialComponent) (p : Nat × Nat) (u : UniformEntry)
    (h : allCleanB mat = true) (hu : getEntryAt mat p = some u) :
    u.dirty = false := by
  unfold getEntryAt at hu
  rcases hb : mat.uniforms.get? p.1 with _ | b
  · rw [hb] at hu
    cases hu
  · rw [hb] at hu
    simp only [Option.some_bind] at hu
    exact (allCleanB_iff mat).1 h b (List.get?_mem hb) u (List.get?_mem hu)

theorem hasDirtyNamed_of_entry (mat : MaterialComponent) (p : Nat × Nat)
    (u : UniformEntry) (hu : getEntryAt mat p = some u) (hn : u.name = n)
    (hd : u.dirty = true) : materialHasDirtyNamed mat n = true := by
  unfold getEntryAt at hu
  rcases hb : mat.uniforms.get? p.1 with _ | b
  · rw [hb] at hu
    cases hu
  · rw [hb] at hu
    simp only [Option.some_bind] at hu
    exact (materialHasDirtyNamed_iff mat n).2
      ⟨b, List.get?_mem hb, u, List.get?_mem hu, hn, hd⟩

theorem materialHasDirtyNamed_clear_self (mat : MaterialComponent) (n : String) :
    materialHasDirtyNamed (clearUniformDirty mat n) n = false := by
  rcases hdn : materialHasDirtyNamed (clearUniformDirty mat n) n with _ | _
  · rfl
  · exfalso
    rcases (materialHasDirtyNamed_iff _ n).1 hdn with ⟨b', hb', u', hu', hn', hd'⟩
    unfold clearUniformDirty at hb'
    simp only [List.mem_map] at hb'
    rcases hb' with ⟨b, _, rfl⟩
    simp only [List.mem_map] at hu'
    rcases hu' with ⟨u, _, rfl⟩
    by_cases hun : u.name = n
    · rw [if_pos hun] at hd'
      exact Bool.false_ne_true hd'
    · rw [if_neg hun] at hn'
      exact hun hn'

theorem materialHasDirtyNamed_clear_other (mat : MaterialComponent)
    (n nm : String) (hne : n ≠ nm) :
    materialHasDirtyNamed (clearUniformDirty mat nm) n =
      materialHasDirtyNamed mat n := by
  apply Bool.eq_iff_iff.mpr
  rw [materialHasDirtyNamed_iff, materialHasDirtyNamed_iff]
  constructor
  · rintro ⟨b', hb', u', hu', hn', hd'⟩
    unfold clearUniformDirty at hb'
    simp only [List.mem_map] at hb'
    rcases hb' with ⟨b, hb, rfl⟩
    simp only [List.mem_map] at hu'
    rcases hu' with ⟨u, hu, rfl⟩
    by_cases hun : u.name = nm
    · rw [if_pos hun] at hd'
      exact absurd hd' Bool.false_ne_true
    · rw [if_neg hun] at hn' hd'
      exact ⟨b, hb, u, hu, hn', hd'⟩
  · rintro ⟨b, hb, u, hu, hn, hd⟩
    have hun : ¬ u.name = nm := by
      rw [hn]
      exact hne
    refine ⟨_, List.mem_map.2 ⟨b, hb, rfl⟩, _,
      List.mem_map.2 ⟨u, hu, rfl⟩, ?_, ?_⟩ <;> simp [hun, hn, hd, hne]

theorem getComponentByEntity_updateMaterial (mats : Store MaterialComponent)
    (k e : Entity) (f : MaterialComponent → MaterialComponent) :
    getComponentByEntity (updateMaterial mats k f) e =
      if k = e then (getComponentByEntity mats e).map f
      else getComponentByEntity mats e := by
  induction mats with
  | nil =>
      unfold updateMaterial
      by_cases hke : k = e <;> simp [hke, getComponentByEntity]
  | cons p rest ih =>
      rcases p with ⟨k', c⟩
      unfold updateMaterial
      by_cases hk'k : k' = k
      · subst hk'k
        by_cases hke : k' = e
        · subst hke
          simp [getComponentByEntity]
        · simp [getComponentByEntity, hke, ih]
      · by_cases hk'e : k' = e
        · subst hk'e
          have hke : ¬ k = k' := fun h => hk'k h.symm
          simp [getComponentByEntity, hk'k, hke, ih]
        · simp [getComponentByEntity, hk'k, hk'e, ih]

theorem getEntryAt_clearUniformDirty (mat : MaterialComponent) (nm : String)
    (p : Nat × Nat) :
    getEntryAt (clearUniformDirty mat nm) p =
      (getEntryAt mat p).map fun u =>
        if u.name = nm then { u with dirty := false } else u := by
  unfold getEntryAt clearUniformDirty
  simp only [List.get?_map]
  rcases hb : mat.uniforms.get? p.1 with _ | b
  · rfl
  · simp [List.get?_map]

theorem matShape_clearUniformDirty (mat : MaterialComponent) (nm : String) :
    matShape (clearUniformDirty mat nm) = matShape mat := by
  unfold matShape clearUniformDirty
  simp [Function.comp]

/-! ## The custom-push counting invariant

Through every piece of the pass, for every material entity `e` and uniform
name `n`: the number of custom-marked pushes of `(e, n)` emitted equals the
drop of the "has a dirty entry named `n`" flag (a dirty flag is pushed and
cleared exactly once, a clean one never pushed). -/

theorem customCount_nil (e : Entity) (n : String) : customCount [] e n = 0 := rfl

theorem customCount_append (t1 t2 : List Event) (e : Entity) (n : String) :
    customCount (t1 ++ t2) e n = customCount t1 e n + customCount t2 e n := by
  simp [customCount, List.filter_append]

theorem isCustomPushFor_drawEventFor (e : Entity) (n : String) (m : Entity)
    (mat : MaterialComponent) (g : GeometryComponent) :
    Event.isCustomPushFor e n (drawEventFor m mat g) = false := by
  unfold drawEventFor
  cases g.indices with
  | none => rfl
  | some idx => by_cases h : idx.isEmpty <;> simp [h, Event.isCustomPushFor]

theorem customUniformStep_skip (matE : Entity) (mats : Store MaterialComponent)
    (p : Nat × Nat)
    (h : getComponentByEntity mats matE = none ∨
      (∃ mat, getComponentByEntity mats matE = some mat ∧ getEntryAt mat p = none) ∨
      (∃ mat u, getComponentByEntity mats matE = some mat ∧
        getEntryAt mat p = some u ∧ u.dirty = false)) :
    customUniformStep matE mats p = (mats, []) := by
  rcases h with hm | ⟨mat, hm, hu⟩ | ⟨mat, u, hm, hu, hd⟩
  · simp [customUniformStep, hm]
  · simp [customUniformStep, hm, hu]
  · simp [customUniformStep, hm, hu, hd]

theorem customUniformStep_push (matE : Entity) (mats : Store MaterialComponent)
    (p : Nat × Nat) (mat : MaterialComponent) (u : UniformEntry)
    (hm : getComponentByEntity mats matE = some mat)
    (hu : getEntryAt mat p = some u) (hd : u.dirty = true) :
    customUniformStep matE mats p =
      (updateMaterial mats matE (fun mm => clearUniformDirty mm u.name),
        [Event.setUniform matE u.name (UniformData.raw u.data) true]) := by
  simp [customUniformStep, hm, hu, hd, setUniform]

theorem dirtyNamed_update_clear_self (mats : Store MaterialComponent)
    (matE : Entity) (mat : MaterialComponent) (n : String)
    (hm : getComponentByEntity mats matE = some mat) :
    dirtyNamed (updateMaterial mats matE fun mm => clearUniformDirty mm n) matE n
      = false := by
  unfold dirtyNamed
  rw [getComponentByEntity_updateMaterial, if_pos rfl, hm]
  show materialHasDirtyNamed (clearUniformDirty mat n) n = false
  exact materialHasDirtyNamed_clear_self mat n

theorem dirtyNamed_update_clear_other (mats : Store MaterialComponent)
    (matE : Entity) (mat : MaterialComponent) (n nm : String)
    (hm : getComponentByEntity mats matE = some mat) (hne : n ≠ nm) :
    dirtyNamed (updateMaterial mats matE fun mm => clearUniformDirty mm nm) matE n
      = dirtyNamed mats matE n := by
  unfold dirtyNamed
  rw [getComponentByEntity_updateMaterial, if_pos rfl, hm]
  show materialHasDirtyNamed (clearUniformDirty mat nm) n = _
  rw [materialHasDirtyNamed_clear_other mat n nm hne]

theorem dirtyNamed_update_ne (mats : Store MaterialComponent) (matE e : Entity)
    (n : String) (f : MaterialComponent → MaterialComponent) (hne : matE ≠ e) :
    dirtyNamed (updateMaterial mats matE f) e n = dirtyNamed mats e n := by
  unfold dirtyNamed
  rw [getComponentByEntity_updateMaterial, if_neg hne]

theorem customUniformStep_inv (matE : Entity) (mats : Store MaterialComponent)
    (p : Nat × Nat) (e : Entity) (n : String) :
    (dirtyNamed mats e n).toNat =
      customCount (customUniformStep matE mats p).2 e n +
        (dirtyNamed (customUniformStep matE mats p).1 e n).toNat := by
  rcases hm : getComponentByEntity mats matE with _ | mat
  · rw [customUniformStep_skip matE mats p (Or.inl hm)]
    simp [customCount]
  rcases hu : getEntryAt mat p with _ | u
  · rw [customUniformStep_skip matE mats p (Or.inr (Or.inl ⟨mat, hm, hu⟩))]
    simp [customCount]
  rcases hd : u.dirty with _ | _
  · rw [customUniformStep_skip matE mats p (Or.inr (Or.inr ⟨mat, u, hm, hu, hd⟩))]
    simp [customCount]
  rw [customUniformStep_push matE mats p mat u hm hu hd]
  have hcount : customCount [Event.setUniform matE u.name (UniformData.raw u.data) true] e n
      = if matE = e ∧ u.name = n then 1 else 0 := by
    by_cases hme : matE = e
    · by_cases hnn : u.name = n
      · have h1 : (matE == e) = true := beq_iff_eq.mpr hme
        have h2 : (u.name == n) = true := beq_iff_eq.mpr hnn
        simp [customCount, List.filter, Event.isCustomPushFor, h1, h2, hme, hnn]
      · have h2 : (u.name == n) = false := beq_eq_false_iff_ne.mpr hnn
        simp [customCount, List.filter, Event.isCustomPushFor, h2, hnn]
    · have h1 : (matE == e) = false := beq_eq_false_iff_ne.mpr hme
      simp [customCount, List.filter, Event.isCustomPushFor, h1, hme]
  rw [hcount]
  by_cases hme : matE = e
  · subst hme
    by_cases hnn : u.name = n
    · have hcond : matE = matE ∧ u.name = n := ⟨rfl, hnn⟩
      rw [if_pos hcond]
      subst hnn
      rw [dirtyNamed_update_clear_self mats matE mat u.name hm]
      have hbefore : dirtyNamed mats matE u.name = true := by
        unfold dirtyNamed
        rw [hm]
        exact hasDirtyNamed_of_entry mat p u hu rfl hd
      rw [hbefore]
      rfl
    · have hcond : ¬ (matE = matE ∧ u.name = n) := fun hc => hnn hc.2
      rw [if_neg hcond]
      rw [dirtyNamed_update_clear_other mats matE mat n u.name hm
        (fun hc => hnn hc.symm)]
      simp
  · have hcond : ¬ (matE = e ∧ u.name = n) := fun hc => hme hc.1
    rw [if_neg hcond, dirtyNamed_update_ne mats matE e n _ hme]
    simp

theorem customUniformLoop_inv (matE : Entity) (e : Entity) (n : String) :
    ∀ (ps : List (Nat × Nat)) (mats : Store MaterialComponent),
      (dirtyNamed mats e n).toNat =
        customCount (customUniformLoop matE mats ps).2 e n +
          (dirtyNamed (customUniformLoop matE mats ps).1 e n).toNat := by
  intro ps
  induction ps with
  | nil => intro mats; simp [customUniformLoop, customCount]
  | cons p ps ih =>
      intro mats
      have hstep := customUniformStep_inv matE mats p e n
      have htail := ih (customUniformStep matE mats p).1
      show (dirtyNamed mats e n).toNat =
        customCount ((customUniformStep matE mats p).2 ++
          (customUniformLoop matE (customUniformStep matE mats p).1 ps).2) e n +
          (dirtyNamed
            (customUniformLoop matE (customUniformStep matE mats p).1 ps).1 e n).toNat
      rw [customCount_append]
      omega

/-! ## The custom-uniform loop cleans every entry of its material -/

theorem mem_entryPositionsFrom (i j : Nat) :
    ∀ (bs : List UniformBinding) (i0 : Nat),
      (i, j) ∈ entryPositionsFrom i0 bs ↔
        ∃ k b, bs.get? k = some b ∧ i = i0 + k ∧ j < b.uniforms.length := by
  intro bs
  induction bs with
  | nil =>
      intro i0
      simp [entryPositionsFrom]
  | cons b bs ih =>
      intro i0
      unfold entryPositionsFrom
      rw [List.mem_append]
      constructor
      · rintro (h1 | h2)
        · simp only [List.mem_map, List.mem_range] at h1
          rcases h1 with ⟨j', hj', hji⟩
          cases hji
          exact ⟨0, b, rfl, by omega, hj'⟩
        · rcases (ih (i0 + 1)).1 h2 with ⟨k, b', hk, hik, hjk⟩
          exact ⟨k + 1, b', hk, by omega, hjk⟩
      · rintro ⟨k, b', hk, hik, hjk⟩
        cases k with
        | zero =>
            cases hk
            left
            simp only [List.mem_map, List.mem_range]
            exact ⟨j, hjk, by simp [hik]⟩
        | succ k' =>
            right
            refine (ih (i0 + 1)).2 ⟨k', b', hk, by omega, hjk⟩

theorem mem_bindingPositions_iff (mat : MaterialComponent) (i j : Nat) :
    (i, j) ∈ bindingPositions mat ↔
      ∃ b, mat.uniforms.get? i = some b ∧ j < b.uniforms.length := by
  unfold bindingPositions
  rw [mem_entryPositionsFrom]
  constructor
  · rintro ⟨k, b, hk, hik, hjk⟩
    exact ⟨b, by rw [hik]; simpa using hk, hjk⟩
  · rintro ⟨b, hb, hj⟩
    exact ⟨i, b, hb, by omega, hj⟩

theorem customUniformStep_state (matE : Entity) (mats : Store MaterialComponent)
    (p : Nat × Nat) :
    (customUniformStep matE mats p).1 = mats ∨
    ∃ mat nm, getComponentByEntity mats matE = some mat ∧
      (customUniformStep matE mats p).1 =
        updateMaterial mats matE (fun mm => clearUniformDirty mm nm) := by
  rcases hm : getComponentByEntity mats matE with _ | mat
  · rw [customUniformStep_skip matE mats p (Or.inl hm)]
    exact Or.inl rfl
  rcases hu : getEntryAt mat p with _ | u
  · rw [customUniformStep_skip matE mats p (Or.inr (Or.inl ⟨mat, hm, hu⟩))]
    exact Or.inl rfl
  rcases hd : u.dirty with _ | _
  · rw [customUniformStep_skip matE mats p (Or.inr (Or.inr ⟨mat, u, hm, hu, hd⟩))]
    exact Or.inl rfl
  · rw [customUniformStep_push matE mats p mat u hm hu hd]
    exact Or.inr ⟨mat, u.name, rfl, rfl⟩

theorem customUniformStep_lookup_shape (matE : Entity)
    (mats : Store MaterialComponent) (p : Nat × Nat) (mat : MaterialComponent)
    (hm : getComponentByEntity mats matE = some mat) :
    ∃ mat', getComponentByEntity (customUniformStep matE mats p).1 matE = some mat' ∧
      matShape mat' = matShape mat := by
  rcases customUniformStep_state matE mats p with heq | ⟨mat0, nm, hm0, heq⟩
  · rw [heq]
    exact ⟨mat, hm, rfl⟩
  · rw [hm] at hm0
    cases hm0
    rw [heq, getComponentByEntity_updateMaterial, if_pos rfl, hm]
    exact ⟨clearUniformDirty mat nm, rfl, matShape_clearUniformDirty mat nm⟩

theorem customUniformLoop_lookup_shape (matE : Entity) :
    ∀ (ps : List (Nat × Nat)) (mats : Store MaterialComponent)
      (mat : MaterialComponent),
      getComponentByEntity mats matE = some mat →
      ∃ mat', getComponentByEntity (customUniformLoop matE mats ps).1 matE = some mat' ∧
        matShape mat' = matShape mat := by
  intro ps
  induction ps with
  | nil =>
      intro mats mat hm
      exact ⟨mat, hm, rfl⟩
  | cons p ps ih =>
      intro mats mat hm
      obtain ⟨mat1, hl1, hsh1⟩ := customUniformStep_lookup_shape matE mats p mat hm
      obtain ⟨mat2, hl2, hsh2⟩ := ih (customUniformStep matE mats p).1 mat1 hl1
      exact ⟨mat2, hl2, hsh2.trans hsh1⟩

theorem customUniformStep_preserves_clean (matE : Entity)
    (mats : Store MaterialComponent) (p q : Nat × Nat)
    (h : entryCleanAt mats matE q) :
    entryCleanAt (customUniformStep matE mats p).1 matE q := by
  rcases customUniformStep_state matE mats p with heq | ⟨mat, nm, hm, heq⟩
  · rw [heq]
    exact h
  · rw [heq]
    intro mat' u' hl hu'
    rw [getComponentByEntity_updateMaterial, if_pos rfl, hm] at hl
    have hmat' : mat' = clearUniformDirty mat nm := by
      simpa using hl.symm
    subst hmat'
    rw [getEntryAt_clearUniformDirty] at hu'
    rcases hq : getEntryAt mat q with _ | u
    · rw [hq] at hu'
      cases hu'
    · rw [hq] at hu'
      simp only [Option.map_some'] at hu'
      by_cases hun : u.name = nm
      · rw [if_pos hun] at hu'
        cases hu'
        rfl
      · rw [if_neg hun] at hu'
        have huu : u = u' := Option.some.inj hu'
        subst huu
        exact h mat u hm hq

theorem customUniformStep_cleans_self (matE : Entity)
    (mats : Store MaterialComponent) (p : Nat × Nat) :
    entryCleanAt (customUniformStep matE mats p).1 matE p := by
  rcases hm : getComponentByEntity mats matE with _ | mat
  · rw [customUniformStep_skip matE mats p (Or.inl hm)]
    intro mat' u hl _
    rw [hm] at hl
    cases hl
  rcases hu : getEntryAt mat p with _ | u
  · rw [customUniformStep_skip matE mats p (Or.inr (Or.inl ⟨mat, hm, hu⟩))]
    intro mat' u' hl hu'
    rw [hm] at hl
    cases hl
    rw [hu] at hu'
    cases hu'
  rcases hd : u.dirty with _ | _
  · rw [customUniformStep_skip matE mats p (Or.inr (Or.inr ⟨mat, u, hm, hu, hd⟩))]
    intro mat' u' hl hu'
    rw [hm] at hl
    cases hl
    rw [hu] at hu'
    cases hu'
    exact hd
  · rw [customUniformStep_push matE mats p mat u hm hu hd]
    intro mat' u' hl hu'
    rw [getComponentByEntity_updateMaterial, if_pos rfl, hm] at hl
    have hmat' : mat' = clearUniformDirty mat u.name := by
      simpa using hl.symm
    subst hmat'
    rw [getEntryAt_clearUniformDirty, hu] at hu'
    simp only [Option.map_some', if_pos rfl] at hu'
    cases hu'
    rfl

theorem customUniformLoop_preserves_clean (matE : Entity) :
    ∀ (ps : List (Nat × Nat)) (mats : Store MaterialComponent) (q : Nat × Nat),
      entryCleanAt mats matE q →
      entryCleanAt (customUniformLoop matE mats ps).1 matE q := by
  intro ps
  induction ps with
  | nil => intro mats q h; exact h
  | cons p ps ih =>
      intro mats q h
      exact ih (customUniformStep matE mats p).1 q
        (customUniformStep_preserves_clean matE mats p q h)

theorem customUniformLoop_cleans_mem (matE : Entity) :
    ∀ (ps : List (Nat × Nat)) (mats : Store MaterialComponent) (q : Nat × Nat),
      q ∈ ps → entryCleanAt (customUniformLoop matE mats ps).1 matE q := by
  intro ps
  induction ps with
  | nil => intro mats q hq; cases hq
  | cons p ps ih =>
      intro mats q hq
      rcases List.mem_cons.1 hq with rfl | hq'
      · exact customUniformLoop_preserves_clean matE ps
          (customUniformStep matE mats q).1 q
          (customUniformStep_cleans_self matE mats q)
      · exact ih (customUniformStep matE mats p).1 q hq'

/-- After the custom-uniform loop over all positions of the captured
material, every uniform entry of the material at `matE` is clean. -/
theorem customUniformLoop_allClean (matE : Entity)
    (mats : Store MaterialComponent) (mat : MaterialComponent)
    (hm : getComponentByEntity mats matE = some mat) :
    ∃ mat', getComponentByEntity
        (customUniformLoop matE mats (bindingPositions mat)).1 matE = some mat' ∧
      allCleanB mat' = true := by
  obtain ⟨mat', hl', hsh⟩ :=
    customUniformLoop_lookup_shape matE (bindingPositions mat) mats mat hm
  refine ⟨mat', hl', ?_⟩
  rw [allCleanB_iff]
  intro b hb u hu
  obtain ⟨i, hi⟩ := List.mem_iff_get?.1 hb
  obtain ⟨j, hj⟩ := List.mem_iff_get?.1 hu
  have hpos : (i, j) ∈ bindingPositions mat := by
    rw [mem_bindingPositions_iff]
    have h1 : (matShape mat').get? i = some b.uniforms.length := by
      unfold matShape
      rw [List.get?_map, hi]
      rfl
    rw [hsh] at h1
    unfold matShape at h1
    rw [List.get?_map] at h1
    rcases hbi : mat.uniforms.get? i with _ | b0
    · rw [hbi] at h1
      cases h1
    · rw [hbi] at h1
      simp only [Option.map_some'] at h1
      have hlen : b0.uniforms.length = b.uniforms.length := by
        simpa using h1
      have hjlen : j < b.uniforms.length := (List.get?_eq_some.mp hj).1
      exact ⟨b0, rfl, by omega⟩
  have hclean := customUniformLoop_cleans_mem matE (bindingPositions mat) mats (i, j) hpos
  refine hclean mat' u hl' ?_
  unfold getEntryAt
  rw [hi]
  simpa using hj

theorem cameraUniformPush_customCount (s : RenderState) (ctx : FrameContext)
    (mats : Store MaterialComponent) (m e' e : Entity) (n : String) :
    customCount (cameraUniformPush s ctx mats m e').2 e n = 0 := by
  unfold customCount
  rw [cameraUniformPush_filter (Event.isCustomPushFor e n) (fun _ _ _ => rfl) s ctx mats m e']
  rfl

theorem processMesh_inv (s : RenderState) (ctx : FrameContext)
    (mats : Store MaterialComponent) (m : Entity) (e : Entity) (n : String) :
    (dirtyNamed mats e n).toNat =
      customCount (processMesh s ctx mats m).1 e n +
        (dirtyNamed (processMesh s ctx mats m).2.1 e n).toNat := by
  rcases hc : getComponentByEntity s.cullables m with _ | cu
  · rw [processMesh_no_cullable s ctx mats m hc]
    simp [customCount]
  rcases hv : cu.visible with _ | _
  · rw [processMesh_not_visible s ctx mats m cu hc hv]
    simp [customCount]
  rcases hm : getComponentByEntity s.meshes m with _ | mc
  · rw [processMesh_no_mesh s ctx mats m cu hc hv hm]
    simp [customCount]
  rcases hmat : getComponentByEntity mats mc.material with _ | mat
  · rw [processMesh_no_material s ctx mats m cu mc hc hv hm hmat]
    simp [customCount]
  rcases hd : mat.dirty with _ | _
  case some.true =>
    rw [processMesh_material_dirty s ctx mats m cu mc mat hc hv hm hmat hd]
    simp [customCount]
  rcases hg : getComponentByEntity s.geometries mc.geometry with _ | g
  · rw [processMesh_no_geometry s ctx mats m cu mc mat hc hv hm hmat hd hg]
    simp [customCount]
  rcases hgd : g.dirty with _ | _
  case some.true =>
    rw [processMesh_geometry_dirty s ctx mats m cu mc mat g hc hv hm hmat hd hg hgd]
    simp [customCount]
  rw [processMesh_success s ctx mats m cu mc mat g hc hv hm hmat hd hg hgd]
  simp only [customCount_append]
  rw [cameraUniformPush_customCount s ctx mats m mc.material e n]
  have hbg : customCount [Event.setRenderBindGroups [mat.uniformBindGroup]] e n = 0 := rfl
  have hvx : customCount (vertexInputEvents g) e n = 0 := by
    unfold customCount
    rw [vertexInputEvents_filter (Event.isCustomPushFor e n) (fun _ _ _ _ _ => rfl) g]
    rfl
  have hdr : customCount [drawEventFor m mat g] e n = 0 := by
    unfold customCount
    simp [List.filter, isCustomPushFor_drawEventFor]
  rw [hbg, hvx, hdr]
  have := customUniformLoop_inv mc.material e n (bindingPositions mat) mats
  omega

theorem runMeshes_inv (s : RenderState) (ctx : FrameContext) (e : Entity) (n : String) :
    ∀ (xs : List Entity) (mats : Store MaterialComponent),
      (dirtyNamed mats e n).toNat =
        customCount (runMeshes s ctx mats xs).1 e n +
          (dirtyNamed (runMeshes s ctx mats xs).2.1 e n).toNat := by
  intro xs
  induction xs with
  | nil => intro mats; simp [runMeshes, customCount]
  | cons m rest ih =>
      intro mats
      have hhead := processMesh_inv s ctx mats m e n
      rcases hr : processMesh s ctx mats m with ⟨ev1, mats1, err⟩
      rw [hr] at hhead
      cases err with
      | some er =>
          rw [runMeshes_cons_error s ctx mats mats1 m rest ev1 er hr]
          exact hhead
      | none =>
          rw [runMeshes_cons_ok s ctx mats mats1 m rest ev1 hr]
          have htail := ih mats1
          simp only [customCount_append]
          simp only at hhead htail
          omega

theorem processScene_inv (s : RenderState) (mats : Store MaterialComponent)
    (sc : SceneComponent) (e : Entity) (n : String) :
    (dirtyNamed mats e n).toNat =
      customCount (processScene s mats sc).1 e n +
        (dirtyNamed (processScene s mats sc).2.1 e n).toNat := by
  rcases hcam : getComponentByEntity s.cameras sc.camera with _ | cam
  · rw [processScene_no_camera s mats sc hcam]
    simp [customCount]
  · rw [processScene_camera s mats sc cam hcam]
    exact runMeshes_inv s ⟨cam.view, cam.perspective⟩ e n sc.meshes mats

theorem runScenes_inv (s : RenderState) (e : Entity) (n : String) :
    ∀ (xs : List (Entity × SceneComponent)) (mats : Store MaterialComponent),
      (dirtyNamed mats e n).toNat =
        customCount (runScenes s mats xs).1 e n +
          (dirtyNamed (runScenes s mats xs).2.1 e n).toNat := by
  intro xs
  induction xs with
  | nil => intro mats; simp [runScenes, customCount]
  | cons p rest ih =>
      intro mats
      rcases p with ⟨se, sc⟩
      have hhead := processScene_inv s mats sc e n
      rcases hr : processScene s mats sc with ⟨ev1, mats1, err⟩
      rw [hr] at hhead
      cases err with
      | some er =>
          rw [runScenes_cons_error s mats mats1 se sc rest ev1 er hr]
          exact hhead
      | none =>
          rw [runScenes_cons_ok s mats mats1 se sc rest ev1 hr]
          have htail := ih mats1
          simp only [customCount_append]
          simp only at hhead htail
          omega

theorem forall₂_all_transfer {α : Type} {R : α → α → Prop} {p q : α → Bool}
    (hR : ∀ a b, R a b → p a = true → q b = true) :
    ∀ {l1 l2 : List α}, List.Forall₂ R l1 l2 → l1.all p = true → l2.all q = true := by
  intro l1 l2 h
  induction h with
  | nil => intro _; rfl
  | cons hab h ih =>
      intro hall
      rw [List.all_cons, Bool.and_eq_true] at hall ⊢
      exact ⟨hR _ _ hab hall.1, ih hall.2⟩

theorem MaterialClears_allClean {c c' : MaterialComponent}
    (h : MaterialClears c c') (hc : allCleanB c = true) : allCleanB c' = true := by
  unfold allCleanB at hc ⊢
  refine forall₂_all_transfer ?_ h.2.2.2.2.2 hc
  intro b b' hb hball
  refine forall₂_all_transfer ?_ hb hball
  intro u u' hu hud
  have hd : u.dirty = false := by simpa using hud
  have := hu.2.2 hd
  simpa using this

theorem StoreClears_allClean {M N : Store MaterialComponent}
    (hSC : StoreClears M N) (e : Entity) (c : MaterialComponent)
    (hl : getComponentByEntity M e = some c) (hc : allCleanB c = true) :
    ∃ c', getComponentByEntity N e = some c' ∧ allCleanB c' = true := by
  obtain ⟨c', hl', hmc⟩ := StoreClears_lookup_some e c hSC hl
  exact ⟨c', hl', MaterialClears_allClean hmc hc⟩

/-- A successfully processed mesh leaves every uniform entry of its
material clean. -/
theorem processMesh_success_clean (s : RenderState) (ctx : FrameContext)
    (mats : Store MaterialComponent) (m : Entity) (cu : CullableComponent)
    (mc : MeshComponent) (mat : MaterialComponent) (g : GeometryComponent)
    (hcu : getComponentByEntity s.cullables m = some cu) (hv : cu.visible = true)
    (hm : getComponentByEntity s.meshes m = some mc)
    (hmat : getComponentByEntity mats mc.material = some mat)
    (hd : mat.dirty = false)
    (hg : getComponentByEntity s.geometries mc.geometry = some g)
    (hgd : g.dirty = false) :
    ∃ mat', getComponentByEntity (processMesh s ctx mats m).2.1 mc.material = some mat' ∧
      allCleanB mat' = true := by
  rw [processMesh_success s ctx mats m cu mc mat g hcu hv hm hmat hd hg hgd]
  exact customUniformLoop_allClean mc.material mats mat hmat

/-- A mesh that issued a draw leaves its material's entries all clean. -/
theorem processMesh_drawn_clean (s : RenderState) (ctx : FrameContext)
    (mats : Store MaterialComponent) (m : Entity) (mc : MeshComponent)
    (hne : (processMesh s ctx mats m).1.filter (Event.isDrawFor m) ≠ [])
    (hm : getComponentByEntity s.meshes m = some mc) :
    ∃ mat', getComponentByEntity (processMesh s ctx mats m).2.1 mc.material = some mat' ∧
      allCleanB mat' = true := by
  rcases hc : getComponentByEntity s.cullables m with _ | cu
  · rw [processMesh_no_cullable s ctx mats m hc] at hne
    simp at hne
  rcases hv : cu.visible with _ | _
  · rw [processMesh_not_visible s ctx mats m cu hc hv] at hne
    simp at hne
  rcases hmat : getComponentByEntity mats mc.material with _ | mat
  · rw [processMesh_no_material s ctx mats m cu mc hc hv hm hmat] at hne
    simp at hne
  rcases hd : mat.dirty with _ | _
  case some.true =>
    rw [processMesh_material_dirty s ctx mats m cu mc mat hc hv hm hmat hd] at hne
    simp at hne
  rcases hg : getComponentByEntity s.geometries mc.geometry with _ | g
  · rw [processMesh_no_geometry s ctx mats m cu mc mat hc hv hm hmat hd hg] at hne
    simp at hne
  rcases hgd : g.dirty with _ | _
  case some.true =>
    rw [processMesh_geometry_dirty s ctx mats m cu mc mat g hc hv hm hmat hd hg hgd] at hne
    simp at hne
  exact processMesh_success_clean s ctx mats m cu mc mat g hc hv hm hmat hd hg hgd

theorem runMeshes_drawn_clean (s : RenderState) (ctx : FrameContext)
    (m : Entity) (mc : MeshComponent)
    (hm : getComponentByEntity s.meshes m = some mc) :
    ∀ (xs : List Entity) (mats : Store MaterialComponent),
      (runMeshes s ctx mats xs).1.filter (Event.isDrawFor m) ≠ [] →
      ∃ mat', getComponentByEntity (runMeshes s ctx mats xs).2.1 mc.material = some mat' ∧
        allCleanB mat' = true := by
  intro xs
  induction xs with
  | nil =>
      intro mats hne
      simp [runMeshes] at hne
  | cons m' rest ih =>
      intro mats hne
      rcases hr : processMesh s ctx mats m' with ⟨ev1, mats1, err⟩
      cases err with
      | some er =>
          have hempty := processMesh_error_trace s ctx mats m' er (by rw [hr])
          rw [runMeshes_cons_error s ctx mats mats m' rest [] er hempty] at hne
          simp at hne
      | none =>
          rw [runMeshes_cons_ok s ctx mats mats1 m' rest ev1 hr] at hne ⊢
          rw [List.filter_append] at hne
          by_cases hh : ev1.filter (Event.isDrawFor m) = []
          · rw [hh, List.nil_append] at hne
            exact ih mats1 hne
          · have hh' : (processMesh s ctx mats m').1.filter (Event.isDrawFor m) ≠ [] := by
              rw [hr]
              exact hh
            by_cases hmm : m' = m
            · subst hmm
              obtain ⟨mat', hl1, hcl⟩ := processMesh_drawn_clean s ctx mats m' mc hh' hm
              rw [hr] at hl1
              have hSC : StoreClears mats1 (runMeshes s ctx mats1 rest).2.1 :=
                runMeshes_clears s ctx rest mats1
              exact StoreClears_allClean hSC mc.material mat' hl1 hcl
            · exact absurd (processMesh_filter_drawFor_ne s ctx mats hmm) (by rw [hr]; exact hh)

theorem runScenes_drawn_clean (s : RenderState) (m : Entity) (mc : MeshComponent)
    (hm : getComponentByEntity s.meshes m = some mc) :
    ∀ (xs : List (Entity × SceneComponent)) (mats : Store MaterialComponent),
      (runScenes s mats xs).1.filter (Event.isDrawFor m) ≠ [] →
      ∃ mat', getComponentByEntity (runScenes s mats xs).2.1 mc.material = some mat' ∧
        allCleanB mat' = true := by
  intro xs
  induction xs with
  | nil =>
      intro mats hne
      simp [runScenes] at hne
  | cons p rest ih =>
      intro mats hne
      rcases p with ⟨se, sc⟩
      rcases hr : processScene s mats sc with ⟨ev1, mats1, err⟩
      have hev1 : ∀ hne1 : ev1.filter (Event.isDrawFor m) ≠ [],
          ∃ mat', getComponentByEntity mats1 mc.material = some mat' ∧
            allCleanB mat' = true := by
        intro hne1
        rcases hcam : getComponentByEntity s.cameras sc.camera with _ | cam
        · rw [processScene_no_camera s mats sc hcam] at hr
          cases hr
          simp at hne1
        · rw [processScene_camera s mats sc cam hcam] at hr
          have := runMeshes_drawn_clean s ⟨cam.view, cam.perspective⟩ m mc hm
            sc.meshes mats (by rw [hr]; exact hne1)
          rw [hr] at this
          exact this
      cases err with
      | some er =>
          rw [runScenes_cons_error s mats mats1 se sc rest ev1 er hr] at hne ⊢
          exact hev1 hne
      | none =>
          rw [runScenes_cons_ok s mats mats1 se sc rest ev1 hr] at hne ⊢
          rw [List.filter_append] at hne
          by_cases hh : ev1.filter (Event.isDrawFor m) = []
          · rw [hh, List.nil_append] at hne
            exact ih mats1 hne
          · obtain ⟨mat', hl1, hcl⟩ := hev1 hh
            have hSC : StoreClears mats1 (runScenes s mats1 rest).2.1 :=
              runScenes_clears s rest mats1
            exact StoreClears_allClean hSC mc.material mat' hl1 hcl

theorem render_drawn_clean (s : RenderState) (m : Entity) (mc : MeshComponent)
    (hm : getComponentByEntity s.meshes m = some mc)
    (hne : (render s).trace.filter (Event.isDrawFor m) ≠ []) :
    ∃ mat', getComponentByEntity (render s).materials mc.material = some mat' ∧
      allCleanB mat' = true := by
  have htr : (render s).trace = clearEvent :: (runScenes s s.materials s.scenes).1 := rfl
  have hmats : (render s).materials = (runScenes s s.materials s.scenes).2.1 := rfl
  rw [htr] at hne
  rw [List.filter_cons] at hne
  have hc : Event.isDrawFor m clearEvent = false := rfl
  rw [hc] at hne
  simp only [Bool.false_eq_true, if_false] at hne
  rw [hmats]
  exact runScenes_drawn_clean s m mc hm s.scenes s.materials hne

theorem render_inv (s : RenderState) (e : Entity) (n : String) :
    (dirtyNamed s.materials e n).toNat =
      customCount (render s).trace e n +
        (dirtyNamed (render s).materials e n).toNat := by
  have htr : (render s).trace = clearEvent :: (runScenes s s.materials s.scenes).1 := rfl
  have hmats : (render s).materials = (runScenes s s.materials s.scenes).2.1 := rfl
  rw [htr, hmats]
  have hclear : customCount (clearEvent :: (runScenes s s.materials s.scenes).1) e n
      = customCount (runScenes s s.materials s.scenes).1 e n := by
    unfold customCount
    rw [List.filter_cons]
    simp [clearEvent, Event.isCustomPushFor]
  rw [hclear]
  exact runScenes_inv s e n s.scenes s.materials

/-! ## Second-frame simulation: a frame after a frame -/

theorem processMesh_materials_irrel (s : RenderState)
    (X : Store MaterialComponent) (ctx : FrameContext)
    (mats : Store MaterialComponent) (m : Entity) :
    processMesh { s with materials := X } ctx mats m = processMesh s ctx mats m := rfl

theorem runMeshes_materials_irrel (s : RenderState)
    (X : Store MaterialComponent) (ctx : FrameContext) :
    ∀ (xs : List Entity) (mats : Store MaterialComponent),
      runMeshes { s with materials := X } ctx mats xs = runMeshes s ctx mats xs := by
  intro xs
  induction xs with
  | nil => intro mats; rfl
  | cons m rest ih =>
      intro mats
      rcases hr : processMesh s ctx mats m with ⟨ev, mats1, err⟩
      have hr' : processMesh { s with materials := X } ctx mats m = (ev, mats1, err) := by
        rw [processMesh_materials_irrel]
        exact hr
      cases err with
      | some er =>
          rw [runMeshes_cons_error { s with materials := X } ctx mats mats1 m rest ev er hr',
            runMeshes_cons_error s ctx mats mats1 m rest ev er hr]
      | none =>
          rw [runMeshes_cons_ok { s with materials := X } ctx mats mats1 m rest ev hr',
            runMeshes_cons_ok s ctx mats mats1 m rest ev hr, ih mats1]

theorem processScene_materials_irrel (s : RenderState)
    (X : Store MaterialComponent) (mats : Store MaterialComponent)
    (sc : SceneComponent) :
    processScene { s with materials := X } mats sc = processScene s mats sc := by
  unfold processScene
  rcases hcam : getComponentByEntity s.cameras sc.camera with _ | cam
  · rfl
  · exact runMeshes_materials_irrel s X ⟨cam.view, cam.perspective⟩ sc.meshes mats

theorem runScenes_materials_irrel (s : RenderState) (X : Store MaterialComponent) :
    ∀ (xs : List (Entity × SceneComponent)) (mats : Store MaterialComponent),
      runScenes { s with materials := X } mats xs = runScenes s mats xs := by
  intro xs
  induction xs with
  | nil => intro mats; rfl
  | cons p rest ih =>
      intro mats
      rcases p with ⟨e, sc⟩
      rcases hr : processScene s mats sc with ⟨ev, mats1, err⟩
      have hr' : processScene { s with materials := X } mats sc = (ev, mats1, err) := by
        rw [processScene_materials_irrel]
        exact hr
      cases err with
      | some er =>
          rw [runScenes_cons_error { s with materials := X } mats mats1 e sc rest ev er hr',
            runScenes_cons_error s mats mats1 e sc rest ev er hr]
      | none =>
          rw [runScenes_cons_ok { s with materials := X } mats mats1 e sc rest ev hr',
            runScenes_cons_ok s mats mats1 e sc rest ev hr, ih mats1]

/-- The custom-uniform loop is a silent no-op on an all-clean material. -/
theorem customUniformLoop_noop (matE : Entity) :
    ∀ (ps : List (Nat × Nat)) (mats : Store MaterialComponent),
      (∀ mat, getComponentByEntity mats matE = some mat → allCleanB mat = true) →
      customUniformLoop matE mats ps = (mats, []) := by
  intro ps
  induction ps with
  | nil => intro mats _; rfl
  | cons p ps ih =>
      intro mats h
      have hstep : customUniformStep matE mats p = (mats, []) := by
        rcases hm : getComponentByEntity mats matE with _ | mat
        · exact customUniformStep_skip matE mats p (Or.inl hm)
        rcases hu : getEntryAt mat p with _ | u
        · exact customUniformStep_skip matE mats p (Or.inr (Or.inl ⟨mat, hm, hu⟩))
        · exact customUniformStep_skip matE mats p
            (Or.inr (Or.inr ⟨mat, u, hm, hu, allCleanB_entry mat p u (h mat hm) hu⟩))
      show ((customUniformLoop matE (customUniformStep matE mats p).1 ps).1,
        (customUniformStep matE mats p).2 ++
          (customUniformLoop matE (customUniformStep matE mats p).1 ps).2) = _
      rw [hstep]
      simp [ih mats h]

theorem cameraUniformPush_events_mats (s : RenderState) (ctx : FrameContext)
    (mats mats' : Store MaterialComponent) (m e : Entity) :
    (cameraUniformPush s ctx mats m e).2 = (cameraUniformPush s ctx mats' m e).2 := by
  unfold cameraUniformPush
  cases getComponentByEntity s.transforms m <;> rfl

theorem isCustomPush_drawEventFor (m : Entity) (mat : MaterialComponent)
    (g : GeometryComponent) :
    Event.isCustomPush (drawEventFor m mat g) = false := by
  unfold drawEventFor
  cases g.indices with
  | none => rfl
  | some idx => by_cases h : idx.isEmpty <;> simp [h, Event.isCustomPush]

theorem cameraUniformPush_filter_keep (s : RenderState) (ctx : FrameContext)
    (mats : Store MaterialComponent) (m e : Entity) :
    (cameraUniformPush s ctx mats m e).2.filter (fun ev => !Event.isCustomPush ev) =
      (cameraUniformPush s ctx mats m e).2 := by
  refine List.filter_eq_self.mpr ?_
  intro ev hev
  rcases cameraUniformPush_events s ctx mats m e ev hev with ⟨n, d, rfl⟩
  rfl

theorem vertexInputEvents_filter_keep (g : GeometryComponent) :
    (vertexInputEvents g).filter (fun ev => !Event.isCustomPush ev) =
      vertexInputEvents g := by
  refine List.filter_eq_self.mpr ?_
  intro ev hev
  rw [vertexInputEvents_shape g ev hev]
  rfl

/-- The draw event only reads material fields that clearing leaves intact. -/
theorem drawEventFor_congr (m : Entity) {mat mat' : MaterialComponent}
    (g : GeometryComponent) (h : MaterialClears mat mat') :
    drawEventFor m mat' g = drawEventFor m mat g := by
  unfold drawEventFor
  have he : elementsDescriptor mat' g = elementsDescriptor mat g := by
    unfold elementsDescriptor
    rw [h.2.2.1, h.2.2.2.1, h.2.2.2.2.1]
  have ha : arraysDescriptor mat' g = arraysDescriptor mat g := by
    unfold arraysDescriptor
    rw [h.2.2.1, h.2.2.2.1, h.2.2.2.2.1]
  cases g.indices with
  | none => rw [ha]
  | some idx => by_cases hi : idx.isEmpty <;> simp [hi, he, ha]

/-- Re-running one mesh against the final store of a frame: the same
events minus the custom-uniform pushes, and no further mutation. -/
theorem processMesh_second (s : RenderState) (ctx : FrameContext)
    (mats F : Store MaterialComponent) (m : Entity)
    (hSC : StoreClears mats F)
    (hclean : ∀ cu mc mat g,
      getComponentByEntity s.cullables m = some cu → cu.visible = true →
      getComponentByEntity s.meshes m = some mc →
      getComponentByEntity mats mc.material = some mat → mat.dirty = false →
      getComponentByEntity s.geometries mc.geometry = some g → g.dirty = false →
      ∀ matF, getComponentByEntity F mc.material = some matF → allCleanB matF = true) :
    processMesh s ctx F m =
      ((processMesh s ctx mats m).1.filter (fun ev => !Event.isCustomPush ev), F,
        (processMesh s ctx mats m).2.2) := by
  rcases hc : getComponentByEntity s.cullables m with _ | cu
  · rw [processMesh_no_cullable s ctx F m hc, processMesh_no_cullable s ctx mats m hc]
    rfl
  rcases hv : cu.visible with _ | _
  · rw [processMesh_not_visible s ctx F m cu hc hv,
      processMesh_not_visible s ctx mats m cu hc hv]
    rfl
  rcases hm : getComponentByEntity s.meshes m with _ | mc
  · rw [processMesh_no_mesh s ctx F m cu hc hv hm,
      processMesh_no_mesh s ctx mats m cu hc hv hm]
    rfl
  rcases hmat : getComponentByEntity mats mc.material with _ | mat
  · have hmatF : getComponentByEntity F mc.material = none :=
      StoreClears_lookup_none mc.material hSC hmat
    rw [processMesh_no_material s ctx F m cu mc hc hv hm hmatF,
      processMesh_no_material s ctx mats m cu mc hc hv hm hmat]
    rfl
  obtain ⟨matF, hmatF, hmc⟩ := StoreClears_lookup_some mc.material mat hSC hmat
  by_cases hd : mat.dirty = true
  · have hdF : matF.dirty = true := hmc.1.trans hd
    rw [processMesh_material_dirty s ctx F m cu mc matF hc hv hm hmatF hdF,
      processMesh_material_dirty s ctx mats m cu mc mat hc hv hm hmat hd]
    rfl
  have hd' : mat.dirty = false := by
    simpa using hd
  have hdF : matF.dirty = false := hmc.1.trans hd'
  rcases hg : getComponentByEntity s.geometries mc.geometry with _ | g
  · rw [processMesh_no_geometry s ctx F m cu mc matF hc hv hm hmatF hdF hg,
      processMesh_no_geometry s ctx mats m cu mc mat hc hv hm hmat hd' hg]
    rfl
  by_cases hgd : g.dirty = true
  · rw [processMesh_geometry_dirty s ctx F m cu mc matF g hc hv hm hmatF hdF hg hgd,
      processMesh_geometry_dirty s ctx mats m cu mc mat g hc hv hm hmat hd' hg hgd]
    rfl
  have hgd' : g.dirty = false := by
    simpa using hgd
  rw [processMesh_success s ctx F m cu mc matF g hc hv hm hmatF hdF hg hgd',
    processMesh_success s ctx mats m cu mc mat g hc hv hm hmat hd' hg hgd']
  have hallF : ∀ mat0, getComponentByEntity F mc.material = some mat0 →
      allCleanB mat0 = true := by
    intro mat0 hl0
    rw [hmatF] at hl0
    cases hl0
    exact hclean cu mc mat g hc hv hm hmat hd' hg hgd' matF hmatF
  have hnoop := customUniformLoop_noop mc.material (bindingPositions matF) F hallF
  rw [hnoop]
  simp only [List.filter_append, cameraUniformPush_filter_keep,
    customUniformLoop_filter (fun ev => !Event.isCustomPush ev)
      (fun _ _ _ => rfl) mc.material (bindingPositions mat) mats,
    vertexInputEvents_filter_keep, List.filter_cons, List.filter_nil]
  rw [cameraUniformPush_events_mats s ctx F mats m mc.material]
  have hbg : (!Event.isCustomPush (Event.setRenderBindGroups [mat.uniformBindGroup])) = true := rfl
  have hdr : (!Event.isCustomPush (drawEventFor m mat g)) = true := by
    rw [isCustomPush_drawEventFor]
    rfl
  simp only [hbg, hdr, if_true, List.nil_append, List.append_nil]
  rw [hmc.2.1, drawEventFor_congr m g hmc]

/-- Re-running a mesh list against the final store of the frame. -/
theorem runMeshes_second (s : RenderState) (ctx : FrameContext) :
    ∀ (xs : List Entity) (mats F M2 : Store MaterialComponent) (ev : List Event)
      (err : Option RenderError),
      runMeshes s ctx mats xs = (ev, M2, err) → StoreClears M2 F →
      runMeshes s ctx F xs = (ev.filter (fun e' => !Event.isCustomPush e'), F, err) := by
  intro xs
  induction xs with
  | nil =>
      intro mats F M2 ev err hrun hSC
      cases hrun
      rfl
  | cons m rest ih =>
      intro mats F M2 ev err hrun hSC
      rcases hr : processMesh s ctx mats m with ⟨e0, M', err0⟩
      have hSCmF : StoreClears mats F := by
        have h1 : StoreClears mats M2 := by
          have := runMeshes_clears s ctx (m :: rest) mats
          rw [hrun] at this
          exact this
        exact StoreClears_trans h1 hSC
      cases err0 with
      | some er =>
          have hempty := processMesh_error_trace s ctx mats m er (by rw [hr])
          rw [hempty] at hr
          cases hr
          rw [runMeshes_cons_error s ctx mats mats m rest [] er hempty] at hrun
          cases hrun
          have hsecond := processMesh_second s ctx mats F m hSC
            (fun cu mc mat g hcu hv hm hmat hd hg hgd matF hmatF => by
              have hsucc := processMesh_success s ctx mats m cu mc mat g hcu hv hm hmat hd hg hgd
              have h22 := congrArg (fun t => t.2.2) (hsucc.symm.trans hempty)
              simp at h22)
          rw [hempty] at hsecond
          exact runMeshes_cons_error s ctx F F m rest [] er hsecond
      | none =>
          rcases hr2 : runMeshes s ctx M' rest with ⟨ev2, M2', err2⟩
          rw [runMeshes_cons_ok s ctx mats M' m rest e0 hr, hr2] at hrun
          cases hrun
          have hSCM'F : StoreClears M' F := by
            have h1 : StoreClears M' M2' := by
              have := runMeshes_clears s ctx rest M'
              rw [hr2] at this
              exact this
            exact StoreClears_trans h1 hSC
          have hsecond := processMesh_second s ctx mats F m hSCmF
            (fun cu mc mat g hcu hv hm hmat hd hg hgd matF hmatF => by
              obtain ⟨mat', hl', hcl'⟩ :=
                processMesh_success_clean s ctx mats m cu mc mat g hcu hv hm hmat hd hg hgd
              rw [hr] at hl'
              obtain ⟨matF', hlF', hclF'⟩ :=
                StoreClears_allClean hSCM'F mc.material mat' hl' hcl'
              rw [hmatF] at hlF'
              cases hlF'
              exact hclF')
          rw [hr] at hsecond
          have htail := ih M' F M2' ev2 err2 hr2 hSC
          rw [runMeshes_cons_ok s ctx F F m rest
            (e0.filter (fun e' => !Event.isCustomPush e')) hsecond, htail]
          rw [List.filter_append]

/-- Re-running a scene list against the final store of the frame. -/
theorem runScenes_second (s : RenderState) :
    ∀ (xs : List (Entity × SceneComponent)) (mats F M2 : Store MaterialComponent)
      (ev : List Event) (err : Option RenderError),
      runScenes s mats xs = (ev, M2, err) → StoreClears M2 F →
      runScenes s F xs = (ev.filter (fun e' => !Event.isCustomPush e'), F, err) := by
  intro xs
  induction xs with
  | nil =>
      intro mats F M2 ev err hrun hSC
      cases hrun
      rfl
  | cons p rest ih =>
      intro mats F M2 ev err hrun hSC
      rcases p with ⟨se, sc⟩
      rcases hcam : getComponentByEntity s.cameras sc.camera with _ | cam
      · have hps := processScene_no_camera s mats sc hcam
        rw [runScenes_cons_error s mats mats se sc rest [] RenderError.typeError hps] at hrun
        cases hrun
        exact runScenes_cons_error s F F se sc rest [] RenderError.typeError
          (processScene_no_camera s F sc hcam)
      · have hps := processScene_camera s mats sc cam hcam
        have hpsF := processScene_camera s F sc cam hcam
        rcases hr : runMeshes s ⟨cam.view, cam.perspective⟩ mats sc.meshes
          with ⟨e0, M', err0⟩
        rw [hr] at hps
        cases err0 with
        | some er =>
            rw [runScenes_cons_error s mats M' se sc rest e0 er hps] at hrun
            have h1 : e0 = ev ∧ M' = M2 ∧ some er = err := by
              simpa [Prod.ext_iff] using hrun
            rcases h1 with ⟨rfl, rfl, rfl⟩
            have hsecond := runMeshes_second s ⟨cam.view, cam.perspective⟩ sc.meshes
              mats F M' e0 (some er) hr hSC
            rw [hsecond] at hpsF
            exact runScenes_cons_error s F F se sc rest
              (e0.filter (fun e' => !Event.isCustomPush e')) er hpsF
        | none =>
            rcases hr2 : runScenes s M' rest with ⟨ev2, M2', err2⟩
            rw [runScenes_cons_ok s mats M' se sc rest e0 hps, hr2] at hrun
            have h1 : e0 ++ ev2 = ev ∧ M2' = M2 ∧ err2 = err := by
              simpa [Prod.ext_iff] using hrun
            rcases h1 with ⟨rfl, rfl, rfl⟩
            have hSCM'F : StoreClears M' F := by
              have h1 : StoreClears M' M2' := by
                have := runScenes_clears s rest M'
                rw [hr2] at this
                exact this
              exact StoreClears_trans h1 hSC
            have hsecond := runMeshes_second s ⟨cam.view, cam.perspective⟩ sc.meshes
              mats F M' e0 none hr hSCM'F
            rw [hsecond] at hpsF
            have htail := ih M' F M2' ev2 err2 hr2 hSC
            rw [runScenes_cons_ok s F F se sc rest
              (e0.filter (fun e' => !Event.isCustomPush e')) hpsF, htail]
            rw [List.filter_append]

/-- Claim C8: rendering a second frame from the state the first frame left
behind (no component mutations in between — only the dirty flags the first
frame itself cleared) produces exactly the first frame's call sequence with
the custom-uniform pushes removed: in particular the same draw calls (same
labels, counts and instance counts), the same error outcome, and no further
component mutation. -/
theorem c8_second_frame_idempotent (s : RenderState) :
    (render (nextState s)).trace =
      (render s).trace.filter (fun ev => !Event.isCustomPush ev) ∧
    (render (nextState s)).trace.filter Event.isDraw =
      (render s).trace.filter Event.isDraw ∧
    (render (nextState s)).materials = (render s).materials ∧
    (render (nextState s)).error = (render s).error := by
  rcases hrun : runScenes s s.materials s.scenes with ⟨ev, M2, err⟩
  have hF : (render s).materials = M2 := by
    show (runScenes s s.materials s.scenes).2.1 = M2
    rw [hrun]
  have htr1 : (render s).trace = clearEvent :: ev := by
    show clearEvent :: (runScenes s s.materials s.scenes).1 = _
    rw [hrun]
  have herr1 : (render s).error = err := by
    show (runScenes s s.materials s.scenes).2.2 = err
    rw [hrun]
  have hns : nextState s = { s with materials := M2 } := by
    unfold nextState
    rw [hF]
  have hrun2 : runScenes (nextState s) (nextState s).materials (nextState s).scenes
      = (ev.filter (fun e' => !Event.isCustomPush e'), M2, err) := by
    rw [hns]
    show runScenes { s with materials := M2 } M2 s.scenes = _
    rw [runScenes_materials_irrel s M2 s.scenes M2]
    exact runScenes_second s s.scenes s.materials M2 M2 ev err hrun (StoreClears_refl M2)
  have htrace : (render (nextState s)).trace =
      (render s).trace.filter (fun ev => !Event.isCustomPush ev) := by
    show clearEvent ::
      (runScenes (nextState s) (nextState s).materials (nextState s).scenes).1 = _
    rw [hrun2, htr1, List.filter_cons]
    have hc : (!Event.isCustomPush clearEvent) = true := rfl
    rw [hc]
    simp
  refine ⟨htrace, ?_, ?_, ?_⟩
  · rw [htrace, List.filter_filter]
    apply List.filter_congr
    intro e _
    cases e <;> simp [Event.isDraw, Event.isCustomPush]
  · show (runScenes (nextState s) (nextState s).materials (nextState s).scenes).2.1 = _
    rw [hrun2, hF]
  · show (runScenes (nextState s) (nextState s).materials (nextState s).scenes).2.2 = _
    rw [hrun2, herr1]

/-- Claim C7: for every drawn mesh and every uniform name `n` of its
material: if no binding entry named `n` is dirty, no custom-marked
`setUniform` push of `n` happens on that material in the whole frame; if a
dirty entry named `n` exists, exactly one custom-marked push of `n` happens
(the push carries the custom-value marker, which clears the flag), and
after the frame no entry named `n` of that material is dirty.  (The
framework camera-matrix pushes carry no custom marker and are not counted.) -/
theorem c7_custom_uniform_sync (s : RenderState) (m : Entity)
    (mc : MeshComponent) (mat : MaterialComponent) (n : String)
    (hm : getComponentByEntity s.meshes m = some mc)
    (hmat : getComponentByEntity s.materials mc.material = some mat)
    (hdrawn : (render s).trace.filter (Event.isDrawFor m) ≠ []) :
    customCount (render s).trace mc.material n =
      (if materialHasDirtyNamed mat n = true then 1 else 0) ∧
    ∀ mat', getComponentByEntity (render s).materials mc.material = some mat' →
      materialHasDirtyNamed mat' n = false := by
  obtain ⟨matF, hlF, hclF⟩ := render_drawn_clean s m mc hm hdrawn
  have hfin : dirtyNamed (render s).materials mc.material n = false := by
    unfold dirtyNamed
    rw [hlF]
    exact allCleanB_hasDirtyNamed matF n hclF
  have hinv := render_inv s mc.material n
  rw [hfin] at hinv
  have hinit : dirtyNamed s.materials mc.material n = materialHasDirtyNamed mat n := by
    unfold dirtyNamed
    rw [hmat]
  rw [hinit] at hinv
  constructor
  · rcases hdn : materialHasDirtyNamed mat n with _ | _
    · rw [hdn] at hinv
      simp at hinv ⊢
      omega
    · rw [hdn] at hinv
      simp at hinv ⊢
      omega
  · intro mat' hl'
    rw [hlF] at hl'
    cases hl'
    exact allCleanB_hasDirtyNamed matF n hclF

/-- Witness for C7 at `exBase`: the dirty `opacity` uniform of material 3
is pushed exactly once in the frame, and is clean afterwards. -/
theorem c7_custom_uniform_sync_witness :
    customCount (render exBase).trace 3 "opacity" =
      (if materialHasDirtyNamed exMat3 "opacity" = true then 1 else 0) ∧
    materialHasDirtyNamed
      ⟨false, [⟨[⟨"opacity", false, 42⟩, ⟨"color", false, 7⟩]⟩], 7, 8, 9, 4⟩
      "opacity" = false :=
  ⟨(c7_custom_uniform_sync exBase 2 ⟨3, 4⟩ exMat3 "opacity" rfl rfl (by decide)).1,
    (c7_custom_uniform_sync exBase 2 ⟨3, 4⟩ exMat3 "opacity" rfl rfl (by decide)).2
      ⟨false, [⟨[⟨"opacity", false, 42⟩, ⟨"color", false, 7⟩]⟩], 7, 8, 9, 4⟩
      (by decide)⟩

end GWebGPU
